import Mathlib

/-!
# Mutable vectors (`src/mutable.c`)

A shallow embedding of the ALTREP "mutable vector" classes of `mutable.c`
together with the part of the host runtime (R's C API) that the file calls.

## Host model

* An object handle (`SEXP`) is the address of an object in a heap; the heap is
  the list of all objects ever allocated, an address is a position in it, and
  allocation appends.  There is no collector, so `PROTECT`/`UNPROTECT` have no
  counterpart.
* A vector element is a word (`Int`): the C `int` of an `INTSXP`, the IEEE-754
  bit pattern of the `double` of a `REALSXP`.  The code only moves elements; it
  never does arithmetic on them.
* Lengths and indices (the host's signed `R_xlen_t`) are integers.
* A data pointer (`void *`, `int *`, `double *`) is the address of the object
  whose buffer it points into; `p[i]` is element `i` of that buffer.
* `error(...)` leaves the function with an R error; undefined behaviour of the C
  code (dangling handle, index outside a buffer) and an exhausted recursion
  budget are a separate fault.
* Host accessors dispatch on ALTREP objects to the methods registered for the
  object's class.  For the two classes of this file those are the functions
  registered in `InitMutableIntegerClass` / `InitMutableRealClass`, which call
  the host accessors again on `data1`; the resulting recursion is bounded by a
  `fuel` argument that decreases by one on every call.

`mutable_Inspect` only prints and is not embedded.  `R_init_mutable` is taken to
have run: the two class variables hold their classes and the methods are
registered.
-/

namespace Mutable

/-! ## Host runtime: objects and heap -/

/-- Object handle: the address of an object in the heap. -/
abbrev SEXP := Nat

/-- Type tag stored in an object header (`SEXPTYPE`). -/
abbrev SEXPTYPE := Nat

/-- Data pointer: the address of the object whose buffer is pointed into. -/
abbrev Ptr := SEXP

def NILSXP : SEXPTYPE := 0
def LGLSXP : SEXPTYPE := 10
def INTSXP : SEXPTYPE := 13
def REALSXP : SEXPTYPE := 14
def STRSXP : SEXPTYPE := 16

/-- The host's `type2char`: the printable name of a type tag. -/
def type2char (t : SEXPTYPE) : String :=
  if t = 0 then "NULL" else if t = 1 then "symbol" else if t = 2 then "pairlist"
  else if t = 3 then "closure" else if t = 4 then "environment"
  else if t = 5 then "promise" else if t = 6 then "language"
  else if t = 7 then "special" else if t = 8 then "builtin"
  else if t = 9 then "char" else if t = 10 then "logical"
  else if t = 13 then "integer" else if t = 14 then "double"
  else if t = 15 then "complex" else if t = 16 then "character"
  else if t = 17 then "..." else if t = 18 then "any"
  else if t = 19 then "list" else if t = 20 then "expression"
  else if t = 21 then "bytecode" else if t = 22 then "externalptr"
  else if t = 23 then "weakref" else if t = 24 then "raw"
  else if t = 25 then "S4" else "unknown"

/-- The two ALTREP classes of the file (`static R_altrep_class_t
mutable_integer_class, mutable_real_class`), as set by `R_init_mutable`. -/
inductive R_altrep_class_t where
  | mutable_integer_class
  | mutable_real_class
  deriving DecidableEq, Repr

export R_altrep_class_t (mutable_integer_class mutable_real_class)

/-- Base type of a class: `R_make_altinteger_class` makes an `INTSXP` class,
`R_make_altreal_class` a `REALSXP` class. -/
def classType : R_altrep_class_t → SEXPTYPE
  | .mutable_integer_class => INTSXP
  | .mutable_real_class => REALSXP

/-- Representation of an object.
* `std data`: a standard vector with its flat buffer.
* `foreign data`: an ALTREP vector of a class defined outside this file, with
  elements `data`, that provides `Length` and `Dataptr` and leaves every other
  method at the ALTREP default; in particular its `Dataptr_or_null` answers
  `NULL` and it has no `Duplicate` method.
* `altrep cls data1 data2`: an ALTREP object of one of the two classes of this
  file, as built by `R_new_altrep`. -/
inductive Body where
  | std (data : List Int)
  | foreign (data : List Int)
  | altrep (cls : R_altrep_class_t) (data1 data2 : SEXP)
  deriving DecidableEq, Repr

/-- A heap object: header (`type`, and `referenced`, the answer the host's
reference tracking gives to `MAYBE_REFERENCED`) and representation.  The
tracking itself belongs to the host: a new object starts unreferenced and
nothing in this file changes the flag of an existing object. -/
structure Obj where
  type : SEXPTYPE
  referenced : Bool
  body : Body
  deriving DecidableEq, Repr

/-- The heap: every object allocated so far, addressed by position. -/
abbrev Heap := List Obj

/-- Ways a call can fail to return a value. -/
inductive Fault where
  /-- An R error raised through `error(...)`, with its message. -/
  | rerror (msg : String)
  /-- No defined result: dangling handle, access outside a buffer, or the
  recursion budget ran out. -/
  | undefined
  deriving DecidableEq, Repr

/-- The distinguished `R_NilValue` handle (address 0 by convention). -/
def R_NilValue : SEXP := 0

/-- The host's `TYPEOF(x)`: the type tag in the header. -/
def TYPEOF (h : Heap) (x : SEXP) : Except Fault SEXPTYPE :=
  match h[x]? with
  | some o => .ok o.type
  | none => .error .undefined

/-- The host's `MAYBE_REFERENCED(x)`: whether another holder may reference `x`. -/
def MAYBE_REFERENCED (h : Heap) (x : SEXP) : Except Fault Bool :=
  match h[x]? with
  | some o => .ok o.referenced
  | none => .error .undefined

/-- The host's `R_altrep_data1(x)`: the first data field of an ALTREP object. -/
def R_altrep_data1 (h : Heap) (x : SEXP) : Except Fault SEXP :=
  match h[x]? with
  | some o =>
    match o.body with
    | .altrep _ data1 _ => .ok data1
    | _ => .error .undefined
  | none => .error .undefined

/-- The host's `R_altrep_inherits(x, class)`: `x` is an ALTREP object of exactly
that class.  A `foreign` object is ALTREP but of another class. -/
def R_altrep_inherits (h : Heap) (x : SEXP) (cls : R_altrep_class_t) :
    Except Fault Bool :=
  match h[x]? with
  | some o =>
    match o.body with
    | .altrep c _ _ => .ok (decide (c = cls))
    | _ => .ok false
  | none => .error .undefined

/-- The host's `R_new_altrep(class, data1, data2)`: allocate an ALTREP object of
the class; its type is the class's base type and it starts unreferenced. -/
def R_new_altrep (h : Heap) (cls : R_altrep_class_t) (data1 data2 : SEXP) :
    SEXP × Heap :=
  (h.length,
   h ++ [{ type := classType cls, referenced := false,
           body := .altrep cls data1 data2 }])

/-- Source line 52: `#define MUTABLE_DATA(x) R_altrep_data1(x)`. -/
def MUTABLE_DATA (h : Heap) (x : SEXP) : Except Fault SEXP :=
  R_altrep_data1 h x

/-! ## ALTREP methods and the host accessors that dispatch to them -/

mutual
/-- The host's `XLENGTH(x)`: the stored length of a standard vector, the class's `Length`
method for an ALTREP object (`mutable_Length` for both classes of this file). -/
def XLENGTH : Nat → Heap → SEXP → Except Fault Int
  | 0, _, _ => .error .undefined
  | fuel + 1, h, x =>
    match h[x]? with
    | none => .error .undefined
    | some o =>
      match o.body with
      | .std data => .ok (data.length : Int)
      | .foreign data => .ok (data.length : Int)
      | .altrep _ _ _ => mutable_Length fuel h x
/-- Source `mutable_Length` (lines 67-70): `return XLENGTH(MUTABLE_DATA(x));`. -/
def mutable_Length : Nat → Heap → SEXP → Except Fault Int
  | 0, _, _ => .error .undefined
  | fuel + 1, h, x =>
    match MUTABLE_DATA h x with
    | .error e => .error e
    | .ok d => XLENGTH fuel h d
end

mutual
/-- The host's `DATAPTR(x)`: the writable data pointer.  A standard vector answers with its
own buffer; an ALTREP object answers through its class's `Dataptr` method called
with `writeable = TRUE` (`mutable_Dataptr` for both classes of this file; a
`foreign` object hands out its own buffer). -/
def DATAPTR : Nat → Heap → SEXP → Except Fault Ptr
  | 0, _, _ => .error .undefined
  | fuel + 1, h, x =>
    match h[x]? with
    | none => .error .undefined
    | some o =>
      match o.body with
      | .std _ => .ok x
      | .foreign _ => .ok x
      | .altrep _ _ _ => mutable_Dataptr fuel h x true
/-- The host's `DATAPTR_RO(x)`: the read-only data pointer; as `DATAPTR`, with the
`Dataptr` method called with `writeable = FALSE`. -/
def DATAPTR_RO : Nat → Heap → SEXP → Except Fault Ptr
  | 0, _, _ => .error .undefined
  | fuel + 1, h, x =>
    match h[x]? with
    | none => .error .undefined
    | some o =>
      match o.body with
      | .std _ => .ok x
      | .foreign _ => .ok x
      | .altrep _ _ _ => mutable_Dataptr fuel h x false
/-- Source `mutable_Dataptr` (lines 77-83):
`if (writeable) return DATAPTR(MUTABLE_DATA(x));
 else return (void *) DATAPTR_RO(MUTABLE_DATA(x));`. -/
def mutable_Dataptr : Nat → Heap → SEXP → Bool → Except Fault Ptr
  | 0, _, _, _ => .error .undefined
  | fuel + 1, h, x, writeable =>
    if writeable then
      match MUTABLE_DATA h x with
      | .error e => .error e
      | .ok d => DATAPTR fuel h d
    else
      match MUTABLE_DATA h x with
      | .error e => .error e
      | .ok d => DATAPTR_RO fuel h d
end

mutual
/-- The host's `DATAPTR_OR_NULL(x)`: the data pointer if it is available without
materialising (`some p`), else `NULL` (`none`).  A standard vector answers with
its buffer; an ALTREP object answers through its class's `Dataptr_or_null`
method (`mutable_Dataptr_or_null` for both classes of this file; the ALTREP
default, used by a `foreign` object, is `NULL`). -/
def DATAPTR_OR_NULL : Nat → Heap → SEXP → Except Fault (Option Ptr)
  | 0, _, _ => .error .undefined
  | fuel + 1, h, x =>
    match h[x]? with
    | none => .error .undefined
    | some o =>
      match o.body with
      | .std _ => .ok (some x)
      | .foreign _ => .ok none
      | .altrep _ _ _ => mutable_Dataptr_or_null fuel h x
/-- Source `mutable_Dataptr_or_null` (lines 85-88):
`return DATAPTR_OR_NULL(MUTABLE_DATA(x));`. -/
def mutable_Dataptr_or_null : Nat → Heap → SEXP → Except Fault (Option Ptr)
  | 0, _, _ => .error .undefined
  | fuel + 1, h, x =>
    match MUTABLE_DATA h x with
    | .error e => .error e
    | .ok d => DATAPTR_OR_NULL fuel h d
end

/-- The buffer held by a representation, if it holds one itself. -/
def Body.buffer : Body → Option (List Int)
  | .std data => some data
  | .foreign data => some data
  | .altrep _ _ _ => none

/-- Read through a data pointer: `p[i]`. -/
def peek (h : Heap) (p : Ptr) (i : Int) : Except Fault Int :=
  match h[p]? with
  | none => .error .undefined
  | some o =>
    match o.body.buffer with
    | none => .error .undefined
    | some data =>
      if 0 ≤ i then
        match data[i.toNat]? with
        | some v => .ok v
        | none => .error .undefined
      else .error .undefined

/-- Replace the buffer of a representation that holds one. -/
def Body.withBuffer : Body → List Int → Body
  | .std _, data => .std data
  | .foreign _, data => .foreign data
  | .altrep cls data1 data2, _ => .altrep cls data1 data2

/-- Write through a data pointer: `p[i] = v`, as a caller holding the writable
pointer does. -/
def poke (h : Heap) (p : Ptr) (i : Int) (v : Int) : Except Fault Heap :=
  match h[p]? with
  | none => .error .undefined
  | some o =>
    match o.body.buffer with
    | none => .error .undefined
    | some data =>
      if 0 ≤ i ∧ i.toNat < data.length then
        .ok (h.set p { o with body := o.body.withBuffer (data.set i.toNat v) })
      else .error .undefined

/-- The host's `INTEGER(x)`: type assertion, then the writable data pointer. -/
def INTEGER (fuel : Nat) (h : Heap) (x : SEXP) : Except Fault Ptr :=
  match TYPEOF h x with
  | .error e => .error e
  | .ok t =>
    if t ≠ INTSXP ∧ t ≠ LGLSXP then
      .error (.rerror ("INTEGER() can only be applied to a 'integer', not a '"
        ++ type2char t ++ "'"))
    else DATAPTR fuel h x

/-- The host's `REAL(x)`: type assertion, then the writable data pointer. -/
def REAL (fuel : Nat) (h : Heap) (x : SEXP) : Except Fault Ptr :=
  match TYPEOF h x with
  | .error e => .error e
  | .ok t =>
    if t ≠ REALSXP then
      .error (.rerror ("REAL() can only be applied to a 'numeric', not a '"
        ++ type2char t ++ "'"))
    else DATAPTR fuel h x

/-- Source `mutable_integer_Elt` (lines 95-98):
`return INTEGER(MUTABLE_DATA(x))[i];`. -/
def mutable_integer_Elt (fuel : Nat) (h : Heap) (x : SEXP) (i : Int) :
    Except Fault Int :=
  match MUTABLE_DATA h x with
  | .error e => .error e
  | .ok d =>
    match INTEGER fuel h d with
    | .error e => .error e
    | .ok p => peek h p i

/-- Source `mutable_real_Elt` (lines 111-114): `return REAL(MUTABLE_DATA(x))[i];`. -/
def mutable_real_Elt (fuel : Nat) (h : Heap) (x : SEXP) (i : Int) :
    Except Fault Int :=
  match MUTABLE_DATA h x with
  | .error e => .error e
  | .ok d =>
    match REAL fuel h d with
    | .error e => .error e
    | .ok p => peek h p i

/-- The host's `INTEGER_ELT(x, i)`: after the type assertion, element `i` of a
standard vector, the class's `Elt` method for an ALTREP object
(`mutable_integer_Elt` is registered for `mutable_integer_class`; the ALTREP
default, used by a `foreign` object, is `INTEGER(x)[i]`). -/
def INTEGER_ELT (fuel : Nat) (h : Heap) (x : SEXP) (i : Int) :
    Except Fault Int :=
  match h[x]? with
  | none => .error .undefined
  | some o =>
    if o.type ≠ INTSXP ∧ o.type ≠ LGLSXP then
      .error (.rerror "bad INTSXP vector")
    else
      match o.body with
      | .std _ => peek h x i
      | .foreign _ =>
        match INTEGER fuel h x with
        | .error e => .error e
        | .ok p => peek h p i
      | .altrep .mutable_integer_class _ _ => mutable_integer_Elt fuel h x i
      | .altrep .mutable_real_class _ _ => .error .undefined

/-- The host's `REAL_ELT(x, i)`: as `INTEGER_ELT`, for `REALSXP`
(`mutable_real_Elt` is registered for `mutable_real_class`). -/
def REAL_ELT (fuel : Nat) (h : Heap) (x : SEXP) (i : Int) :
    Except Fault Int :=
  match h[x]? with
  | none => .error .undefined
  | some o =>
    if o.type ≠ REALSXP then
      .error (.rerror "bad REALSXP vector")
    else
      match o.body with
      | .std _ => peek h x i
      | .foreign _ =>
        match REAL fuel h x with
        | .error e => .error e
        | .ok p => peek h p i
      | .altrep .mutable_real_class _ _ => mutable_real_Elt fuel h x i
      | .altrep .mutable_integer_class _ _ => .error .undefined

/-- The host's `INTEGER_OR_NULL(x)`: type assertion, then `DATAPTR_OR_NULL`. -/
def INTEGER_OR_NULL (fuel : Nat) (h : Heap) (x : SEXP) :
    Except Fault (Option Ptr) :=
  match TYPEOF h x with
  | .error e => .error e
  | .ok t =>
    if t ≠ INTSXP ∧ t ≠ LGLSXP then .error (.rerror "bad INTSXP vector")
    else DATAPTR_OR_NULL fuel h x

/-- The host's `REAL_OR_NULL(x)`: type assertion, then `DATAPTR_OR_NULL`. -/
def REAL_OR_NULL (fuel : Nat) (h : Heap) (x : SEXP) :
    Except Fault (Option Ptr) :=
  match TYPEOF h x with
  | .error e => .error e
  | .ok t =>
    if t ≠ REALSXP then .error (.rerror "bad REALSXP vector")
    else DATAPTR_OR_NULL fuel h x

/-- Store into the caller's output buffer: `buf[k] = v`.  Writing outside the
buffer is undefined. -/
def store (buf : List Int) (k : Nat) (v : Int) : Except Fault (List Int) :=
  if k < buf.length then .ok (buf.set k v) else .error .undefined

/-- The copy loop of the host's region readers,
`for (k = 0; k < ncopy; k++) buf[k] = <element k + i>;`
with `steps` iterations left and loop counter `k`. -/
def copyLoop (read : Int → Except Fault Int) (i : Int) :
    Nat → Nat → List Int → Except Fault (List Int)
  | 0, _, buf => .ok buf
  | steps + 1, k, buf =>
    match read ((k : Int) + i) with
    | .error e => .error e
    | .ok v =>
      match store buf k v with
      | .error e => .error e
      | .ok buf1 => copyLoop read i steps (k + 1) buf1

/-- The host's `ncopy = size - i > n ? n : size - i`. -/
def regionCount (size i n : Int) : Int :=
  if size - i > n then n else size - i

mutual
/-- The host's `INTEGER_GET_REGION(sx, i, n, buf)`: if `INTEGER_OR_NULL(sx)` is
a pointer `x`, copy `ncopy` elements `x[k + i]` into `buf` and return `ncopy`;
otherwise call the class's `Get_region` method (`mutable_integer_Get_region` is
registered for `mutable_integer_class`; the ALTREP default, used by a `foreign`
object, copies `INTEGER_ELT(sx, k + i)`).  Returns the count and the buffer. -/
def INTEGER_GET_REGION : Nat → Heap → SEXP → Int → Int → List Int →
    Except Fault (Int × List Int)
  | 0, _, _, _, _, _ => .error .undefined
  | fuel + 1, h, sx, i, n, buf =>
    match INTEGER_OR_NULL (fuel + 1) h sx with
    | .error e => .error e
    | .ok (some x) =>
      match XLENGTH (fuel + 1) h sx with
      | .error e => .error e
      | .ok size =>
        match copyLoop (peek h x) i (regionCount size i n).toNat 0 buf with
        | .error e => .error e
        | .ok buf1 => .ok (regionCount size i n, buf1)
    | .ok none =>
      match h[sx]? with
      | none => .error .undefined
      | some o =>
        match o.body with
        | .altrep .mutable_integer_class _ _ =>
          mutable_integer_Get_region fuel h sx i n buf
        | .foreign _ =>
          match XLENGTH (fuel + 1) h sx with
          | .error e => .error e
          | .ok size =>
            match copyLoop (INTEGER_ELT (fuel + 1) h sx) i
                (regionCount size i n).toNat 0 buf with
            | .error e => .error e
            | .ok buf1 => .ok (regionCount size i n, buf1)
        | _ => .error .undefined
/-- Source `mutable_integer_Get_region` (lines 100-104):
`return INTEGER_GET_REGION(MUTABLE_DATA(x), i, n, buf);`. -/
def mutable_integer_Get_region : Nat → Heap → SEXP → Int → Int →
    List Int → Except Fault (Int × List Int)
  | 0, _, _, _, _, _ => .error .undefined
  | fuel + 1, h, x, i, n, buf =>
    match MUTABLE_DATA h x with
    | .error e => .error e
    | .ok d => INTEGER_GET_REGION fuel h d i n buf
end

mutual
/-- The host's `REAL_GET_REGION(sx, i, n, buf)`: as `INTEGER_GET_REGION`, for
`REALSXP` (`mutable_real_Get_region` is registered for `mutable_real_class`). -/
def REAL_GET_REGION : Nat → Heap → SEXP → Int → Int → List Int →
    Except Fault (Int × List Int)
  | 0, _, _, _, _, _ => .error .undefined
  | fuel + 1, h, sx, i, n, buf =>
    match REAL_OR_NULL (fuel + 1) h sx with
    | .error e => .error e
    | .ok (some x) =>
      match XLENGTH (fuel + 1) h sx with
      | .error e => .error e
      | .ok size =>
        match copyLoop (peek h x) i (regionCount size i n).toNat 0 buf with
        | .error e => .error e
        | .ok buf1 => .ok (regionCount size i n, buf1)
    | .ok none =>
      match h[sx]? with
      | none => .error .undefined
      | some o =>
        match o.body with
        | .altrep .mutable_real_class _ _ =>
          mutable_real_Get_region fuel h sx i n buf
        | .foreign _ =>
          match XLENGTH (fuel + 1) h sx with
          | .error e => .error e
          | .ok size =>
            match copyLoop (REAL_ELT (fuel + 1) h sx) i
                (regionCount size i n).toNat 0 buf with
            | .error e => .error e
            | .ok buf1 => .ok (regionCount size i n, buf1)
        | _ => .error .undefined
/-- Source `mutable_real_Get_region` (lines 116-120):
`return REAL_GET_REGION(MUTABLE_DATA(x), i, n, buf);`. -/
def mutable_real_Get_region : Nat → Heap → SEXP → Int → Int →
    List Int → Except Fault (Int × List Int)
  | 0, _, _, _, _, _ => .error .undefined
  | fuel + 1, h, x, i, n, buf =>
    match MUTABLE_DATA h x with
    | .error e => .error e
    | .ok d => REAL_GET_REGION fuel h d i n buf
end

/-- The first `n` elements behind a data pointer, as `memcpy` reads them. -/
def readBlock (h : Heap) (p : Ptr) (n : Int) : Except Fault (List Int) :=
  match h[p]? with
  | none => .error .undefined
  | some o =>
    match o.body.buffer with
    | none => .error .undefined
    | some data =>
      if 0 ≤ n ∧ n.toNat ≤ data.length then .ok (data.take n.toNat)
      else .error .undefined

/-- The host's `duplicate(x)` on a vector.  Neither class of this file registers
a `Duplicate` method and a `foreign` object has none, so the host makes the
standard copy: a fresh standard vector of the same type and of length
`XLENGTH(x)`, filled by `memcpy` from the data pointer of `x`; the copy starts
unreferenced. -/
def duplicate (fuel : Nat) (h : Heap) (x : SEXP) : Except Fault (SEXP × Heap) :=
  match TYPEOF h x with
  | .error e => .error e
  | .ok t =>
    match XLENGTH fuel h x with
    | .error e => .error e
    | .ok n =>
      match DATAPTR fuel h x with
      | .error e => .error e
      | .ok p =>
        match readBlock h p n with
        | .error e => .error e
        | .ok data =>
          .ok (h.length,
               h ++ [{ type := t, referenced := false, body := .std data }])

/-! ## Constructor and entry points -/

/-- The `switch(type)` of `make_mutable` (lines 33-42): the class for a type, or
none for the `default:` case. -/
def classOfType (type : SEXPTYPE) : Option R_altrep_class_t :=
  if type = INTSXP then some mutable_integer_class
  else if type = REALSXP then some mutable_real_class
  else none

/-- Source `make_mutable` (lines 28-50).  Returns the outcome together with the heap
after the call, also when the call leaves through `error`. -/
def make_mutable (fuel : Nat) (h : Heap) (data : SEXP) :
    Except Fault SEXP × Heap :=
  match TYPEOF h data with
  | .error e => (.error e, h)
  | .ok type =>
    match classOfType type with
    | none =>
      (.error (.rerror ("mutable vectors for " ++ type2char type
        ++ " not supported yet")), h)
    | some cls =>
      match MAYBE_REFERENCED h data with
      | .error e => (.error e, h)
      | .ok shared =>
        match (if shared then duplicate fuel h data else .ok (data, h)) with
        | .error e => (.error e, h)
        | .ok (data1, h1) =>
          let (ans, h2) := R_new_altrep h1 cls data1 R_NilValue
          (.ok ans, h2)

/-- Source `do_make_mutable` (lines 172-175): `return make_mutable(x);`. -/
def do_make_mutable (fuel : Nat) (h : Heap) (x : SEXP) :
    Except Fault SEXP × Heap :=
  make_mutable fuel h x

/-- Source `do_is_mutable` (lines 177-187).  `ScalarLogical(b)` is one of the host's
shared logical constants; the result is given as the truth value it holds. -/
def do_is_mutable (h : Heap) (x : SEXP) : Except Fault Bool :=
  match TYPEOF h x with
  | .error e => .error e
  | .ok t =>
    if t = INTSXP then R_altrep_inherits h x mutable_integer_class
    else if t = REALSXP then R_altrep_inherits h x mutable_real_class
    else .ok false

/-! ## Well-formed vectors -/

/-- Well-formed vector.  `Chain h ty x r n`: `x` is a vector of type `ty` whose
elements live in the buffer of object `r`, reached from `x` through `n` objects
of the classes of this file, each of type `ty` and of the class for `ty`.  A
standard vector and a `foreign` vector are their own buffer (`n = 0`); a mutable
vector is one step above its `data1`. -/
inductive Chain (h : Heap) (ty : SEXPTYPE) : SEXP → SEXP → Nat → Prop where
  | buffer (x : SEXP) (o : Obj) (data : List Int) :
      h[x]? = some o → o.type = ty → o.body.buffer = some data →
      Chain h ty x x 0
  | hop (x : SEXP) (o : Obj) (cls : R_altrep_class_t) (d1 d2 r : SEXP) (n : Nat) :
      h[x]? = some o → o.type = ty → o.body = .altrep cls d1 d2 →
      classType cls = ty → Chain h ty d1 r n →
      Chain h ty x r (n + 1)

/-- Contents of the buffer of object `r`. -/
def bufferAt (h : Heap) (r : SEXP) : Option (List Int) :=
  match h[r]? with
  | none => none
  | some o => o.body.buffer

/-- Mutable vector.  `Wrapper h cls w r n`: `w` is a mutable vector of class
`cls` (an ALTREP object of that class, of the class's type) whose storage
`data1` is a vector of the same type with buffer `r`, `n` objects further
down. -/
def Wrapper (h : Heap) (cls : R_altrep_class_t) (w r : SEXP) (n : Nat) : Prop :=
  ∃ o d1 d2, h[w]? = some o ∧ o.type = classType cls ∧
    o.body = .altrep cls d1 d2 ∧ Chain h (classType cls) d1 r n

/-- Whether object `r` is a standard vector. -/
def isStd (h : Heap) (r : SEXP) : Bool :=
  match h[r]? with
  | none => false
  | some o =>
    match o.body with
    | .std _ => true
    | _ => false

/-- The `Elt` method registered for a class: `R_set_altinteger_Elt_method(cls,
mutable_integer_Elt)` (line 144), `R_set_altreal_Elt_method(cls,
mutable_real_Elt)` (line 163). -/
def Elt_method : R_altrep_class_t → Nat → Heap → SEXP → Int → Except Fault Int
  | .mutable_integer_class => mutable_integer_Elt
  | .mutable_real_class => mutable_real_Elt

/-- The `Get_region` method registered for a class (lines 145 and 164). -/
def Get_region_method : R_altrep_class_t → Nat → Heap → SEXP → Int →
    Int → List Int → Except Fault (Int × List Int)
  | .mutable_integer_class => mutable_integer_Get_region
  | .mutable_real_class => mutable_real_Get_region

/-- A heap in which every object of type `INTSXP` or `REALSXP` is a well-formed
vector. -/
def WellFormed (h : Heap) : Prop :=
  ∀ (x : SEXP) (o : Obj), h[x]? = some o → o.type = INTSXP ∨ o.type = REALSXP →
    ∃ r n, Chain h o.type x r n

/-- A sequence of writes `p[i] = v` through one data pointer. -/
def pokeAll (h : Heap) (p : Ptr) : List (Int × Int) → Except Fault Heap
  | [] => .ok h
  | (i, v) :: ws =>
    match poke h p i v with
    | .error e => .error e
    | .ok h1 => pokeAll h1 p ws

/-- A small heap used to instantiate the theorems:
0 `R_NilValue`; 1 an integer vector, the storage of object 6; 2 a shared integer
vector; 3 a shared real vector of a foreign ALTREP class; 4 a character vector;
5 an unshared integer vector of a foreign ALTREP class; 6 a shared mutable
integer vector whose storage is object 1; 7 an unshared real vector. -/
def exampleHeap : Heap :=
  [ { type := NILSXP, referenced := true, body := .std [] },
    { type := INTSXP, referenced := true, body := .std [1, 2, 3, 4] },
    { type := INTSXP, referenced := true, body := .std [10, 20, 30] },
    { type := REALSXP, referenced := true, body := .foreign [7, 8] },
    { type := STRSXP, referenced := true, body := .std [0] },
    { type := INTSXP, referenced := false, body := .foreign [5, 6, 7] },
    { type := INTSXP, referenced := true,
      body := .altrep mutable_integer_class 1 R_NilValue },
    { type := REALSXP, referenced := false, body := .std [15, 25] } ]

/-! ## Evaluation along a chain -/

theorem Chain.lookup {h : Heap} {ty : SEXPTYPE} {x r : SEXP} {n : Nat}
    (hc : Chain h ty x r n) : ∃ o, h[x]? = some o ∧ o.type = ty := by
  cases hc with
  | buffer _ o _ hx hty _ => exact ⟨o, hx, hty⟩
  | hop _ o _ _ _ _ _ hx hty _ _ _ => exact ⟨o, hx, hty⟩

theorem Chain.root_buffer {h : Heap} {ty : SEXPTYPE} {x r : SEXP} {n : Nat}
    (hc : Chain h ty x r n) :
    ∃ o data, h[r]? = some o ∧ o.type = ty ∧ o.body.buffer = some data := by
  induction hc with
  | buffer _ o data hx hty hb => exact ⟨o, data, hx, hty, hb⟩
  | hop _ _ _ _ _ _ _ _ _ _ _ _ ih => exact ih

theorem XLENGTH_chain {h : Heap} {ty : SEXPTYPE} {x r : SEXP} {n : Nat}
    (hc : Chain h ty x r n) {data : List Int} (hbuf : bufferAt h r = some data)
    (fuel : Nat) (hf : 2 * n + 1 ≤ fuel) :
    XLENGTH fuel h x = .ok (data.length : Int) := by
  induction hc generalizing fuel with
  | buffer x o d hx hty hb =>
    obtain ⟨f, rfl⟩ : ∃ f, fuel = f + 1 := ⟨fuel - 1, by omega⟩
    simp only [bufferAt, hx] at hbuf
    unfold XLENGTH
    simp only [hx]
    cases hbody : o.body <;> simp_all [Body.buffer]
  | hop x o cls d1 d2 r n hx hty hb hcl hch ih =>
    obtain ⟨f, rfl⟩ : ∃ f, fuel = f + 2 := ⟨fuel - 2, by omega⟩
    unfold XLENGTH
    simp only [hx, hb]
    unfold mutable_Length
    simp only [MUTABLE_DATA, R_altrep_data1, hx, hb]
    exact ih hbuf f (by omega)

theorem DATAPTR_chain {h : Heap} {ty : SEXPTYPE} {x r : SEXP} {n : Nat}
    (hc : Chain h ty x r n) (fuel : Nat) (hf : 2 * n + 1 ≤ fuel) :
    DATAPTR fuel h x = .ok r := by
  induction hc generalizing fuel with
  | buffer x o d hx hty hb =>
    obtain ⟨f, rfl⟩ : ∃ f, fuel = f + 1 := ⟨fuel - 1, by omega⟩
    unfold DATAPTR
    simp only [hx]
    cases hbody : o.body <;> simp_all [Body.buffer]
  | hop x o cls d1 d2 r n hx hty hb hcl hch ih =>
    obtain ⟨f, rfl⟩ : ∃ f, fuel = f + 2 := ⟨fuel - 2, by omega⟩
    unfold DATAPTR
    simp only [hx, hb]
    unfold mutable_Dataptr
    simp only [MUTABLE_DATA, R_altrep_data1, hx, hb, if_true]
    exact ih f (by omega)

theorem DATAPTR_RO_chain {h : Heap} {ty : SEXPTYPE} {x r : SEXP} {n : Nat}
    (hc : Chain h ty x r n) (fuel : Nat) (hf : 2 * n + 1 ≤ fuel) :
    DATAPTR_RO fuel h x = .ok r := by
  induction hc generalizing fuel with
  | buffer x o d hx hty hb =>
    obtain ⟨f, rfl⟩ : ∃ f, fuel = f + 1 := ⟨fuel - 1, by omega⟩
    unfold DATAPTR_RO
    simp only [hx]
    cases hbody : o.body <;> simp_all [Body.buffer]
  | hop x o cls d1 d2 r n hx hty hb hcl hch ih =>
    obtain ⟨f, rfl⟩ : ∃ f, fuel = f + 2 := ⟨fuel - 2, by omega⟩
    unfold DATAPTR_RO
    simp only [hx, hb]
    unfold mutable_Dataptr
    simp only [MUTABLE_DATA, R_altrep_data1, hx, hb]
    exact ih f (by omega)

theorem DATAPTR_OR_NULL_chain {h : Heap} {ty : SEXPTYPE} {x r : SEXP} {n : Nat}
    (hc : Chain h ty x r n) (fuel : Nat) (hf : 2 * n + 1 ≤ fuel) :
    DATAPTR_OR_NULL fuel h x = .ok (if isStd h r then some r else none) := by
  induction hc generalizing fuel with
  | buffer x o d hx hty hb =>
    obtain ⟨f, rfl⟩ : ∃ f, fuel = f + 1 := ⟨fuel - 1, by omega⟩
    unfold DATAPTR_OR_NULL
    simp only [hx, isStd]
    cases hbody : o.body <;> simp_all [Body.buffer]
  | hop x o cls d1 d2 r n hx hty hb hcl hch ih =>
    obtain ⟨f, rfl⟩ : ∃ f, fuel = f + 2 := ⟨fuel - 2, by omega⟩
    unfold DATAPTR_OR_NULL
    simp only [hx, hb]
    unfold mutable_Dataptr_or_null
    simp only [MUTABLE_DATA, R_altrep_data1, hx, hb]
    exact ih f (by omega)

theorem TYPEOF_chain {h : Heap} {ty : SEXPTYPE} {x r : SEXP} {n : Nat}
    (hc : Chain h ty x r n) : TYPEOF h x = .ok ty := by
  obtain ⟨o, hx, hty⟩ := hc.lookup
  simp [TYPEOF, hx, hty]

theorem peek_root {h : Heap} {r : SEXP} {data : List Int}
    (hbuf : bufferAt h r = some data) (i : Int) :
    peek h r i =
      if 0 ≤ i then
        match data[i.toNat]? with
        | some v => .ok v
        | none => .error .undefined
      else .error .undefined := by
  unfold bufferAt at hbuf
  unfold peek
  cases hr : h[r]? with
  | none => simp [hr] at hbuf
  | some o => simp only [hr] at hbuf; simp only [hbuf]

theorem INTEGER_chain {h : Heap} {x r : SEXP} {n : Nat}
    (hc : Chain h INTSXP x r n) (fuel : Nat) (hf : 2 * n + 1 ≤ fuel) :
    INTEGER fuel h x = .ok r := by
  simp [INTEGER, TYPEOF_chain hc, DATAPTR_chain hc fuel hf]

theorem REAL_chain {h : Heap} {x r : SEXP} {n : Nat}
    (hc : Chain h REALSXP x r n) (fuel : Nat) (hf : 2 * n + 1 ≤ fuel) :
    REAL fuel h x = .ok r := by
  simp [REAL, TYPEOF_chain hc, DATAPTR_chain hc fuel hf]

theorem INTEGER_ELT_chain {h : Heap} {x r : SEXP} {n : Nat}
    (hc : Chain h INTSXP x r n) (fuel : Nat) (hf : 2 * n + 1 ≤ fuel)
    (i : Int) : INTEGER_ELT fuel h x i = peek h r i := by
  cases hc with
  | buffer x o d hx hty hb =>
    have hI := INTEGER_chain (Chain.buffer x o d hx hty hb) fuel hf
    unfold INTEGER_ELT
    simp only [hx, hty]
    cases hbody : o.body <;> simp_all [Body.buffer]
  | hop x o cls d1 d2 r n hx hty hb hcl hch =>
    have hcls : cls = mutable_integer_class := by
      cases cls <;> simp_all [classType, INTSXP, REALSXP]
    subst hcls
    unfold INTEGER_ELT
    simp only [hx, hty, hb]
    simp [mutable_integer_Elt, MUTABLE_DATA, R_altrep_data1, hx, hb,
      INTEGER_chain hch fuel (by omega)]

theorem REAL_ELT_chain {h : Heap} {x r : SEXP} {n : Nat}
    (hc : Chain h REALSXP x r n) (fuel : Nat) (hf : 2 * n + 1 ≤ fuel)
    (i : Int) : REAL_ELT fuel h x i = peek h r i := by
  cases hc with
  | buffer x o d hx hty hb =>
    have hI := REAL_chain (Chain.buffer x o d hx hty hb) fuel hf
    unfold REAL_ELT
    simp only [hx, hty]
    cases hbody : o.body <;> simp_all [Body.buffer]
  | hop x o cls d1 d2 r n hx hty hb hcl hch =>
    have hcls : cls = mutable_real_class := by
      cases cls <;> simp_all [classType, INTSXP, REALSXP]
    subst hcls
    unfold REAL_ELT
    simp only [hx, hty, hb]
    simp [mutable_real_Elt, MUTABLE_DATA, R_altrep_data1, hx, hb,
      REAL_chain hch fuel (by omega)]

/-! ## Frame lemmas: allocation -/

theorem lookup_lt {h : Heap} {x : Nat} {o : Obj} (hx : h[x]? = some o) :
    x < h.length := by
  obtain ⟨hlt, _⟩ := List.getElem?_eq_some.mp hx
  exact hlt

theorem lookup_append {h : Heap} {x : SEXP} {o : Obj} (hx : h[x]? = some o)
    (ext : Heap) : (h ++ ext)[x]? = some o := by
  rw [List.getElem?_append_left (lookup_lt hx)]
  exact hx

theorem Chain.after_alloc {h : Heap} {ty : SEXPTYPE} {x r : SEXP} {n : Nat}
    (hc : Chain h ty x r n) (ext : Heap) : Chain (h ++ ext) ty x r n := by
  induction hc with
  | buffer x o d hx hty hb => exact .buffer x o d (lookup_append hx ext) hty hb
  | hop x o cls d1 d2 r n hx hty hb hcl _ ih =>
    exact .hop x o cls d1 d2 r n (lookup_append hx ext) hty hb hcl ih

theorem bufferAt_append {h : Heap} {r : SEXP} {data : List Int}
    (hbuf : bufferAt h r = some data) (ext : Heap) :
    bufferAt (h ++ ext) r = some data := by
  unfold bufferAt at hbuf ⊢
  cases hr : h[r]? with
  | none => simp [hr] at hbuf
  | some o =>
    rw [lookup_append hr ext]
    simpa [hr] using hbuf

theorem isStd_append {h : Heap} {r : SEXP} {o : Obj} (hr : h[r]? = some o)
    (ext : Heap) : isStd (h ++ ext) r = isStd h r := by
  simp [isStd, lookup_append hr ext, hr]

/-! ## Frame lemmas: writes through a data pointer -/

theorem poke_eq {h h2 : Heap} {p : Ptr} {i : Int} {v : Int}
    (hp : poke h p i v = .ok h2) :
    ∃ o data, h[p]? = some o ∧ o.body.buffer = some data ∧ 0 ≤ i ∧
      i.toNat < data.length ∧
      h2 = h.set p { o with body := o.body.withBuffer (data.set i.toNat v) } := by
  unfold poke at hp
  cases ho : h[p]? with
  | none => simp [ho] at hp
  | some o =>
    simp only [ho] at hp
    cases hb : o.body.buffer with
    | none => simp [hb] at hp
    | some data =>
      simp only [hb] at hp
      by_cases hcond : 0 ≤ i ∧ i.toNat < data.length
      · rw [if_pos hcond] at hp
        exact ⟨o, data, rfl, hb, hcond.1, hcond.2, (Except.ok.inj hp).symm⟩
      · rw [if_neg hcond] at hp
        cases hp

theorem poke_ok {h : Heap} {p : Ptr} {data : List Int}
    (hbuf : bufferAt h p = some data) {i : Int} (h0 : 0 ≤ i)
    (hi : i < (data.length : Int)) (v : Int) : ∃ h2, poke h p i v = .ok h2 := by
  unfold bufferAt at hbuf
  unfold poke
  cases ho : h[p]? with
  | none => simp [ho] at hbuf
  | some o =>
    simp only [ho] at hbuf
    simp only [hbuf]
    have : i.toNat < data.length := (Int.toNat_lt h0).mpr hi
    simp [h0, this]

theorem withBuffer_buffer {b : Body} {data : List Int} (new : List Int)
    (hb : b.buffer = some data) : (b.withBuffer new).buffer = some new := by
  cases b <;> simp_all [Body.buffer, Body.withBuffer]

theorem poke_lookup_ne {h h2 : Heap} {p : Ptr} {i : Int} {v : Int}
    (hp : poke h p i v = .ok h2) {x : SEXP} (hx : x ≠ p) : h2[x]? = h[x]? := by
  obtain ⟨o, data, _, _, _, _, rfl⟩ := poke_eq hp
  exact List.getElem?_set_ne (Ne.symm hx)

theorem poke_bufferAt_self {h h2 : Heap} {p : Ptr} {i : Int} {v : Int}
    (hp : poke h p i v = .ok h2) {data : List Int}
    (hbuf : bufferAt h p = some data) :
    bufferAt h2 p = some (data.set i.toNat v) := by
  obtain ⟨o, d, ho, hb, _, _, rfl⟩ := poke_eq hp
  have hd : d = data := by
    simp only [bufferAt, ho, hb, Option.some.injEq] at hbuf
    exact hbuf
  subst hd
  unfold bufferAt
  rw [List.getElem?_set_self (lookup_lt ho)]
  exact withBuffer_buffer _ hb

theorem Chain.after_poke {h h2 : Heap} {p : Ptr} {i : Int} {v : Int}
    (hp : poke h p i v = .ok h2) {ty : SEXPTYPE} {x r : SEXP} {n : Nat}
    (hc : Chain h ty x r n) : Chain h2 ty x r n := by
  obtain ⟨op, dp, hop, hbp, _, _, hh2⟩ := poke_eq hp
  induction hc with
  | buffer x o d hx hty hb =>
    by_cases hxp : x = p
    · subst hxp
      have ho : o = op := by
        rw [hx] at hop
        exact Option.some.inj hop
      subst ho
      refine .buffer x { o with body := o.body.withBuffer (dp.set i.toNat v) }
        (dp.set i.toNat v) ?_ hty (withBuffer_buffer _ hb)
      rw [hh2]
      exact List.getElem?_set_self (lookup_lt hx)
    · exact .buffer x o d ((poke_lookup_ne hp hxp).trans hx) hty hb
  | hop x o cls d1 d2 r n hx hty hb hcl _ ih =>
    have hxp : x ≠ p := by
      rintro rfl
      rw [hx] at hop
      have ho : o = op := Option.some.inj hop
      subst ho
      simp [hb, Body.buffer] at hbp
    exact .hop x o cls d1 d2 r n ((poke_lookup_ne hp hxp).trans hx) hty hb hcl ih

/-! ## The copy loop -/

theorem copyLoop_congr {read1 read2 : Int → Except Fault Int}
    (hrd : ∀ j, read1 j = read2 j) (i : Int) (steps k : Nat)
    (buf : List Int) : copyLoop read1 i steps k buf = copyLoop read2 i steps k buf := by
  have : read1 = read2 := funext hrd
  rw [this]

theorem copyLoop_peek {h : Heap} {r : SEXP} {data : List Int}
    (hbuf : bufferAt h r = some data) {i : Int} (hi : 0 ≤ i)
    (steps : Nat) : ∀ (k : Nat) (buf : List Int),
    i.toNat + k + steps ≤ data.length → k + steps ≤ buf.length →
    ∃ buf1, copyLoop (peek h r) i steps k buf = .ok buf1 ∧
      buf1.length = buf.length ∧
      ∀ j, buf1[j]? =
        if k ≤ j ∧ j < k + steps then data[i.toNat + j]? else buf[j]? := by
  induction steps with
  | zero =>
    intro k buf _ _
    refine ⟨buf, rfl, rfl, fun j => ?_⟩
    have : ¬ (k ≤ j ∧ j < k + 0) := by omega
    rw [if_neg this]
  | succ steps ih =>
    intro k buf hd hb
    have hidx : ((k : Int) + i).toNat = i.toNat + k := by omega
    have hlt : i.toNat + k < data.length := by omega
    have hpk : peek h r ((k : Int) + i) = .ok (data[i.toNat + k]) := by
      rw [peek_root hbuf, if_pos (by omega), hidx, List.getElem?_eq_getElem hlt]
    have hst : store buf k (data[i.toNat + k]) = .ok (buf.set k (data[i.toNat + k])) := by
      unfold store
      rw [if_pos (by omega)]
    obtain ⟨buf1, hloop, hlen, hget⟩ := ih (k + 1) (buf.set k (data[i.toNat + k]))
      (by omega) (by rw [List.length_set]; omega)
    refine ⟨buf1, ?_, ?_, fun j => ?_⟩
    · rw [copyLoop, hpk]
      simp only [hst]
      exact hloop
    · rw [hlen, List.length_set]
    · rw [hget j]
      by_cases hjk : j = k
      · subst hjk
        have h1 : ¬ (j + 1 ≤ j ∧ j < j + 1 + steps) := by omega
        have h2 : j ≤ j ∧ j < j + (steps + 1) := by omega
        rw [if_neg h1, if_pos h2, List.getElem?_set_self (by omega),
          List.getElem?_eq_getElem hlt]
      · rw [List.getElem?_set_ne (Ne.symm hjk)]
        by_cases hin : k + 1 ≤ j ∧ j < k + 1 + steps
        · rw [if_pos hin, if_pos (by omega)]
        · rw [if_neg hin, if_neg (by omega)]

/-! ## Region reads along a chain -/

theorem INTEGER_OR_NULL_chain {h : Heap} {x r : SEXP} {n : Nat}
    (hc : Chain h INTSXP x r n) (fuel : Nat) (hf : 2 * n + 1 ≤ fuel) :
    INTEGER_OR_NULL fuel h x = .ok (if isStd h r then some r else none) := by
  simp [INTEGER_OR_NULL, TYPEOF_chain hc, DATAPTR_OR_NULL_chain hc fuel hf]

theorem REAL_OR_NULL_chain {h : Heap} {x r : SEXP} {n : Nat}
    (hc : Chain h REALSXP x r n) (fuel : Nat) (hf : 2 * n + 1 ≤ fuel) :
    REAL_OR_NULL fuel h x = .ok (if isStd h r then some r else none) := by
  simp [REAL_OR_NULL, TYPEOF_chain hc, DATAPTR_OR_NULL_chain hc fuel hf]

theorem INTEGER_GET_REGION_chain {h : Heap} {x r : SEXP} {n : Nat}
    (hc : Chain h INTSXP x r n) {data : List Int}
    (hbuf : bufferAt h r = some data) (fuel : Nat) (hf : 2 * n + 1 ≤ fuel)
    (i cnt : Int) (buf : List Int) :
    INTEGER_GET_REGION fuel h x i cnt buf =
      match copyLoop (peek h r) i (regionCount data.length i cnt).toNat 0 buf with
      | .error e => .error e
      | .ok buf1 => .ok (regionCount data.length i cnt, buf1) := by
  induction hc generalizing fuel with
  | buffer x o d hx hty hb =>
    obtain ⟨f, rfl⟩ : ∃ f, fuel = f + 1 := ⟨fuel - 1, by omega⟩
    have hch : Chain h INTSXP x x 0 := .buffer x o d hx hty hb
    unfold INTEGER_GET_REGION
    rw [INTEGER_OR_NULL_chain hch (f + 1) hf, XLENGTH_chain hch hbuf (f + 1) hf]
    cases hbody : o.body with
    | std dd => simp [isStd, hx, hbody]
    | foreign dd =>
      simp only [isStd, hx, hbody]
      rw [copyLoop_congr (INTEGER_ELT_chain hch (f + 1) hf)]
      simp
    | altrep c a b => simp [hbody, Body.buffer] at hb
  | hop x o cls d1 d2 r n hx hty hb hcl hch ih =>
    obtain ⟨f, rfl⟩ : ∃ f, fuel = f + 2 := ⟨fuel - 2, by omega⟩
    have hcls : cls = mutable_integer_class := by
      cases cls <;> simp_all [classType, INTSXP, REALSXP]
    subst hcls
    have hfull : Chain h INTSXP x r (n + 1) := .hop x o _ d1 d2 r n hx hty hb hcl hch
    unfold INTEGER_GET_REGION
    rw [INTEGER_OR_NULL_chain hfull (f + 2) hf, XLENGTH_chain hfull hbuf (f + 2) hf]
    cases hstd : isStd h r with
    | true => simp
    | false =>
      simp only [hx, hb]
      unfold mutable_integer_Get_region
      simp only [MUTABLE_DATA, R_altrep_data1, hx, hb]
      simpa using ih hbuf f (by omega)

theorem REAL_GET_REGION_chain {h : Heap} {x r : SEXP} {n : Nat}
    (hc : Chain h REALSXP x r n) {data : List Int}
    (hbuf : bufferAt h r = some data) (fuel : Nat) (hf : 2 * n + 1 ≤ fuel)
    (i cnt : Int) (buf : List Int) :
    REAL_GET_REGION fuel h x i cnt buf =
      match copyLoop (peek h r) i (regionCount data.length i cnt).toNat 0 buf with
      | .error e => .error e
      | .ok buf1 => .ok (regionCount data.length i cnt, buf1) := by
  induction hc generalizing fuel with
  | buffer x o d hx hty hb =>
    obtain ⟨f, rfl⟩ : ∃ f, fuel = f + 1 := ⟨fuel - 1, by omega⟩
    have hch : Chain h REALSXP x x 0 := .buffer x o d hx hty hb
    unfold REAL_GET_REGION
    rw [REAL_OR_NULL_chain hch (f + 1) hf, XLENGTH_chain hch hbuf (f + 1) hf]
    cases hbody : o.body with
    | std dd => simp [isStd, hx, hbody]
    | foreign dd =>
      simp only [isStd, hx, hbody]
      rw [copyLoop_congr (REAL_ELT_chain hch (f + 1) hf)]
      simp
    | altrep c a b => simp [hbody, Body.buffer] at hb
  | hop x o cls d1 d2 r n hx hty hb hcl hch ih =>
    obtain ⟨f, rfl⟩ : ∃ f, fuel = f + 2 := ⟨fuel - 2, by omega⟩
    have hcls : cls = mutable_real_class := by
      cases cls <;> simp_all [classType, INTSXP, REALSXP]
    subst hcls
    have hfull : Chain h REALSXP x r (n + 1) := .hop x o _ d1 d2 r n hx hty hb hcl hch
    unfold REAL_GET_REGION
    rw [REAL_OR_NULL_chain hfull (f + 2) hf, XLENGTH_chain hfull hbuf (f + 2) hf]
    cases hstd : isStd h r with
    | true => simp
    | false =>
      simp only [hx, hb]
      unfold mutable_real_Get_region
      simp only [MUTABLE_DATA, R_altrep_data1, hx, hb]
      simpa using ih hbuf f (by omega)

/-! ## Wrappers -/

theorem Wrapper.chain {h : Heap} {cls : R_altrep_class_t} {w r : SEXP} {n : Nat}
    (hw : Wrapper h cls w r n) : Chain h (classType cls) w r (n + 1) := by
  obtain ⟨o, d1, d2, hx, hty, hb, hch⟩ := hw
  exact .hop w o cls d1 d2 r n hx hty hb rfl hch

theorem Wrapper.data1 {h : Heap} {cls : R_altrep_class_t} {w r : SEXP} {n : Nat}
    (hw : Wrapper h cls w r n) :
    ∃ d1, MUTABLE_DATA h w = .ok d1 ∧ Chain h (classType cls) d1 r n := by
  obtain ⟨o, d1, d2, hx, hty, hb, hch⟩ := hw
  exact ⟨d1, by simp [MUTABLE_DATA, R_altrep_data1, hx, hb], hch⟩

theorem Wrapper.wrapper_after_poke {h h2 : Heap} {p : Ptr} {i : Int} {v : Int}
    (hp : poke h p i v = .ok h2) {cls : R_altrep_class_t} {w r : SEXP} {n : Nat}
    (hw : Wrapper h cls w r n) : Wrapper h2 cls w r n := by
  have hfull := hw.chain.after_poke hp
  obtain ⟨o, d1, d2, hx, hty, hb, hch⟩ := hw
  have hwp : w ≠ p := by
    obtain ⟨op, dp, hop, hbp, _⟩ := poke_eq hp
    rintro rfl
    rw [hx] at hop
    have ho : o = op := Option.some.inj hop
    subst ho
    simp [hb, Body.buffer] at hbp
  exact ⟨o, d1, d2, (poke_lookup_ne hp hwp).trans hx, hty, hb, hch.after_poke hp⟩

theorem mutable_Length_wrapper {h : Heap} {cls : R_altrep_class_t} {w r : SEXP}
    {n : Nat} (hw : Wrapper h cls w r n) {data : List Int}
    (hbuf : bufferAt h r = some data) (fuel : Nat) (hf : 2 * n + 2 ≤ fuel) :
    mutable_Length fuel h w = .ok (data.length : Int) := by
  obtain ⟨d1, hd, hch⟩ := hw.data1
  obtain ⟨f, rfl⟩ : ∃ f, fuel = f + 1 := ⟨fuel - 1, by omega⟩
  unfold mutable_Length
  simp only [hd]
  exact XLENGTH_chain hch hbuf f (by omega)

theorem mutable_Dataptr_wrapper {h : Heap} {cls : R_altrep_class_t} {w r : SEXP}
    {n : Nat} (hw : Wrapper h cls w r n) (fuel : Nat) (hf : 2 * n + 2 ≤ fuel)
    (writeable : Bool) : mutable_Dataptr fuel h w writeable = .ok r := by
  obtain ⟨d1, hd, hch⟩ := hw.data1
  obtain ⟨f, rfl⟩ : ∃ f, fuel = f + 1 := ⟨fuel - 1, by omega⟩
  unfold mutable_Dataptr
  cases writeable
  · simp only [hd]
    simpa using DATAPTR_RO_chain hch f (by omega)
  · simp only [hd]
    simpa using DATAPTR_chain hch f (by omega)

theorem mutable_Dataptr_or_null_wrapper {h : Heap} {cls : R_altrep_class_t}
    {w r : SEXP} {n : Nat} (hw : Wrapper h cls w r n) (fuel : Nat)
    (hf : 2 * n + 2 ≤ fuel) :
    mutable_Dataptr_or_null fuel h w =
      .ok (if isStd h r then some r else none) := by
  obtain ⟨d1, hd, hch⟩ := hw.data1
  obtain ⟨f, rfl⟩ : ∃ f, fuel = f + 1 := ⟨fuel - 1, by omega⟩
  unfold mutable_Dataptr_or_null
  simp only [hd]
  exact DATAPTR_OR_NULL_chain hch f (by omega)

theorem Elt_method_wrapper {h : Heap} {cls : R_altrep_class_t} {w r : SEXP}
    {n : Nat} (hw : Wrapper h cls w r n) (fuel : Nat) (hf : 2 * n + 1 ≤ fuel)
    (i : Int) : Elt_method cls fuel h w i = peek h r i := by
  obtain ⟨d1, hd, hch⟩ := hw.data1
  cases cls with
  | mutable_integer_class =>
    simp [Elt_method, mutable_integer_Elt, hd, INTEGER_chain hch fuel hf]
  | mutable_real_class =>
    simp [Elt_method, mutable_real_Elt, hd, REAL_chain hch fuel hf]

theorem Get_region_method_wrapper {h : Heap} {cls : R_altrep_class_t}
    {w r : SEXP} {n : Nat} (hw : Wrapper h cls w r n) {data : List Int}
    (hbuf : bufferAt h r = some data) (fuel : Nat) (hf : 2 * n + 2 ≤ fuel)
    (i cnt : Int) (buf : List Int) :
    Get_region_method cls fuel h w i cnt buf =
      match copyLoop (peek h r) i (regionCount data.length i cnt).toNat 0 buf with
      | .error e => .error e
      | .ok buf1 => .ok (regionCount data.length i cnt, buf1) := by
  obtain ⟨d1, hd, hch⟩ := hw.data1
  obtain ⟨f, rfl⟩ : ∃ f, fuel = f + 1 := ⟨fuel - 1, by omega⟩
  cases cls with
  | mutable_integer_class =>
    simp only [Get_region_method]
    unfold mutable_integer_Get_region
    simp only [hd]
    exact INTEGER_GET_REGION_chain hch hbuf f (by omega) i cnt buf
  | mutable_real_class =>
    simp only [Get_region_method]
    unfold mutable_real_Get_region
    simp only [hd]
    exact REAL_GET_REGION_chain hch hbuf f (by omega) i cnt buf

theorem peek_congr {h h2 : Heap} {r : SEXP} (hb : bufferAt h2 r = bufferAt h r)
    (i : Int) : peek h2 r i = peek h r i := by
  have key : ∀ g : Heap, peek g r i =
      match bufferAt g r with
      | none => .error .undefined
      | some data =>
        if 0 ≤ i then
          match data[i.toNat]? with
          | some v => .ok v
          | none => .error .undefined
        else .error .undefined := by
    intro g
    unfold peek bufferAt
    cases g[r]? <;> rfl
  rw [key h2, key h, hb]

/-! ## The constructor -/

theorem classOfType_some {ty : SEXPTYPE} {cls : R_altrep_class_t}
    (hcls : classOfType ty = some cls) :
    classType cls = ty ∧ (ty = INTSXP ∨ ty = REALSXP) := by
  unfold classOfType at hcls
  by_cases h1 : ty = INTSXP
  · simp only [h1, if_true, Option.some.injEq] at hcls
    subst hcls
    exact ⟨h1 ▸ rfl, Or.inl h1⟩
  · rw [if_neg h1] at hcls
    by_cases h2 : ty = REALSXP
    · simp only [h2, if_true, Option.some.injEq] at hcls
      subst hcls
      exact ⟨h2 ▸ rfl, Or.inr h2⟩
    · rw [if_neg h2] at hcls
      cases hcls

theorem classOfType_supported {ty : SEXPTYPE} (hty : ty = INTSXP ∨ ty = REALSXP) :
    ∃ cls, classOfType ty = some cls ∧ classType cls = ty := by
  rcases hty with rfl | rfl
  · exact ⟨mutable_integer_class, rfl, rfl⟩
  · exact ⟨mutable_real_class, rfl, rfl⟩

theorem MAYBE_REFERENCED_chain {h : Heap} {ty : SEXPTYPE} {x r : SEXP} {n : Nat}
    (hc : Chain h ty x r n) : ∃ b, MAYBE_REFERENCED h x = .ok b := by
  obtain ⟨o, hx, _⟩ := hc.lookup
  exact ⟨o.referenced, by simp [MAYBE_REFERENCED, hx]⟩

theorem readBlock_root {h : Heap} {r : SEXP} {data : List Int}
    (hbuf : bufferAt h r = some data) :
    readBlock h r (data.length : Int) = .ok data := by
  unfold bufferAt at hbuf
  unfold readBlock
  cases hr : h[r]? with
  | none => simp [hr] at hbuf
  | some o =>
    simp only [hr] at hbuf
    simp [hbuf]

theorem duplicate_chain {h : Heap} {ty : SEXPTYPE} {x r : SEXP} {n : Nat}
    (hc : Chain h ty x r n) {data : List Int} (hbuf : bufferAt h r = some data)
    (fuel : Nat) (hf : 2 * n + 1 ≤ fuel) :
    duplicate fuel h x =
      .ok (h.length, h ++ [{ type := ty, referenced := false, body := .std data }]) := by
  unfold duplicate
  simp only [TYPEOF_chain hc, XLENGTH_chain hc hbuf fuel hf, DATAPTR_chain hc fuel hf,
    readBlock_root hbuf]

theorem make_mutable_adopt {h : Heap} {ty : SEXPTYPE} {a r : SEXP} {n : Nat}
    (hc : Chain h ty a r n) {cls : R_altrep_class_t}
    (hcls : classOfType ty = some cls)
    (hs : MAYBE_REFERENCED h a = .ok false) (fuel : Nat) :
    make_mutable fuel h a =
      (.ok h.length,
       h ++ [{ type := ty, referenced := false, body := .altrep cls a R_NilValue }]) := by
  unfold make_mutable
  simp [TYPEOF_chain hc, hcls, hs, R_new_altrep, (classOfType_some hcls).1]

theorem make_mutable_copy {h : Heap} {ty : SEXPTYPE} {a r : SEXP} {n : Nat}
    (hc : Chain h ty a r n) {cls : R_altrep_class_t}
    (hcls : classOfType ty = some cls)
    (hs : MAYBE_REFERENCED h a = .ok true) {data : List Int}
    (hbuf : bufferAt h r = some data) (fuel : Nat) (hf : 2 * n + 1 ≤ fuel) :
    make_mutable fuel h a =
      (.ok (h.length + 1),
       (h ++ [{ type := ty, referenced := false, body := .std data }]) ++
         [{ type := ty, referenced := false,
            body := .altrep cls h.length R_NilValue }]) := by
  unfold make_mutable
  simp [TYPEOF_chain hc, hcls, hs, R_new_altrep, (classOfType_some hcls).1,
    duplicate_chain hc hbuf fuel hf]

theorem make_mutable_adopt_wrapper {h : Heap} {ty : SEXPTYPE} {a r : SEXP}
    {n : Nat} (hc : Chain h ty a r n) {cls : R_altrep_class_t}
    (hcls : classOfType ty = some cls)
    (hs : MAYBE_REFERENCED h a = .ok false) (fuel : Nat) :
    ∃ o : Obj, make_mutable fuel h a = (.ok h.length, h ++ [o]) ∧
      Wrapper (h ++ [o]) cls h.length r n ∧
      MUTABLE_DATA (h ++ [o]) h.length = .ok a := by
  have hct := (classOfType_some hcls).1
  refine ⟨⟨ty, false, .altrep cls a R_NilValue⟩, make_mutable_adopt hc hcls hs fuel,
    ?_, ?_⟩
  · refine ⟨_, a, R_NilValue, List.getElem?_concat_length _ _, hct.symm, rfl, ?_⟩
    rw [hct]
    exact hc.after_alloc _
  · simp [MUTABLE_DATA, R_altrep_data1]

theorem make_mutable_copy_wrapper {h : Heap} {ty : SEXPTYPE} {a r : SEXP}
    {n : Nat} (hc : Chain h ty a r n) {cls : R_altrep_class_t}
    (hcls : classOfType ty = some cls)
    (hs : MAYBE_REFERENCED h a = .ok true) {data : List Int}
    (hbuf : bufferAt h r = some data) (fuel : Nat) (hf : 2 * n + 1 ≤ fuel) :
    ∃ ow : Obj,
      make_mutable fuel h a = (.ok (h.length + 1), h ++ [⟨ty, false, .std data⟩, ow]) ∧
      (h ++ [⟨ty, false, .std data⟩, ow])[h.length]? = some ⟨ty, false, .std data⟩ ∧
      Wrapper (h ++ [⟨ty, false, .std data⟩, ow]) cls (h.length + 1) h.length 0 ∧
      MUTABLE_DATA (h ++ [⟨ty, false, .std data⟩, ow]) (h.length + 1) = .ok h.length ∧
      bufferAt (h ++ [⟨ty, false, .std data⟩, ow]) h.length = some data := by
  have hct := (classOfType_some hcls).1
  have hlc : ∀ ow : Obj,
      (h ++ [⟨ty, false, .std data⟩, ow])[h.length]? = some ⟨ty, false, .std data⟩ := by
    intro ow
    rw [List.getElem?_append_right (le_refl _)]
    simp
  have hlw : ∀ ow : Obj,
      (h ++ [⟨ty, false, .std data⟩, ow])[h.length + 1]? = some ow := by
    intro ow
    rw [List.getElem?_append_right (by omega)]
    simp
  refine ⟨⟨ty, false, .altrep cls h.length R_NilValue⟩, ?_, hlc _, ?_, ?_, ?_⟩
  · rw [make_mutable_copy hc hcls hs hbuf fuel hf, List.append_assoc]
    rfl
  · refine ⟨_, h.length, R_NilValue, hlw _, hct.symm, rfl, ?_⟩
    rw [hct]
    exact .buffer _ ⟨ty, false, .std data⟩ data (hlc _) rfl rfl
  · simp [MUTABLE_DATA, R_altrep_data1, hlw]
  · simp [bufferAt, hlc, Body.buffer]

theorem make_mutable_wrapper {h : Heap} {ty : SEXPTYPE} {a r : SEXP} {n : Nat}
    (hty : ty = INTSXP ∨ ty = REALSXP) (hc : Chain h ty a r n)
    {data : List Int} (hbuf : bufferAt h r = some data) (fuel : Nat)
    (hf : 2 * n + 1 ≤ fuel) :
    ∃ w h1 cls r1 n1 ext, make_mutable fuel h a = (.ok w, h1) ∧
      classOfType ty = some cls ∧ h1 = h ++ ext ∧ Wrapper h1 cls w r1 n1 ∧
      n1 ≤ n ∧ bufferAt h1 r1 = some data := by
  obtain ⟨cls, hcls, hct⟩ := classOfType_supported hty
  obtain ⟨b, hb⟩ := MAYBE_REFERENCED_chain hc
  cases b with
  | false =>
    obtain ⟨o, hmk, hw, _⟩ := make_mutable_adopt_wrapper hc hcls hb fuel
    exact ⟨_, _, cls, r, n, [o], hmk, hcls, rfl, hw, le_refl n,
      bufferAt_append hbuf _⟩
  | true =>
    obtain ⟨ow, hmk, _, hw, _, hb1⟩ :=
      make_mutable_copy_wrapper hc hcls hb hbuf fuel hf
    exact ⟨_, _, cls, h.length, 0, _, hmk, hcls, rfl, hw, Nat.zero_le n, hb1⟩

theorem do_is_mutable_wrapper {h : Heap} {cls : R_altrep_class_t} {w r : SEXP}
    {n : Nat} (hw : Wrapper h cls w r n) : do_is_mutable h w = .ok true := by
  obtain ⟨o, d1, d2, hx, hty, hb, _⟩ := hw
  cases cls <;>
    simp [do_is_mutable, TYPEOF, R_altrep_inherits, hx, hty, hb, classType,
      INTSXP, REALSXP]

/-! ## R errors come only from `error(...)` -/

theorem TYPEOF_fault (h : Heap) (x : SEXP) (msg : String) :
    TYPEOF h x ≠ .error (.rerror msg) := by
  unfold TYPEOF
  cases h[x]? <;> simp

theorem MUTABLE_DATA_fault (h : Heap) (x : SEXP) (msg : String) :
    MUTABLE_DATA h x ≠ .error (.rerror msg) := by
  unfold MUTABLE_DATA R_altrep_data1
  cases hx : h[x]? with
  | none => simp
  | some o => cases hb : o.body <;> simp [hb]

theorem readBlock_fault (h : Heap) (p : Ptr) (n : Int) (msg : String) :
    readBlock h p n ≠ .error (.rerror msg) := by
  unfold readBlock
  cases hp : h[p]? with
  | none => simp
  | some o =>
    cases hb : o.body.buffer with
    | none => simp [hb]
    | some data =>
      simp only [hb]
      split <;> simp

theorem XLENGTH_fault (fuel : Nat) : ∀ (h : Heap) (x : SEXP) (msg : String),
    XLENGTH fuel h x ≠ .error (.rerror msg) ∧
    mutable_Length fuel h x ≠ .error (.rerror msg) := by
  induction fuel with
  | zero =>
    intro h x msg
    constructor <;> simp [XLENGTH, mutable_Length]
  | succ f ih =>
    intro h x msg
    constructor
    · unfold XLENGTH
      cases hx : h[x]? with
      | none => simp
      | some o =>
        cases hb : o.body with
        | std d => simp [hb]
        | foreign d => simp [hb]
        | altrep c a b => simpa [hb] using (ih h x msg).2
    · unfold mutable_Length
      cases hd : MUTABLE_DATA h x with
      | error e =>
        intro heq
        exact MUTABLE_DATA_fault h x msg (by rw [hd, Except.error.inj heq])
      | ok d => simpa using (ih h d msg).1

theorem DATAPTR_fault (fuel : Nat) : ∀ (h : Heap) (x : SEXP) (msg : String),
    DATAPTR fuel h x ≠ .error (.rerror msg) ∧
    DATAPTR_RO fuel h x ≠ .error (.rerror msg) ∧
    ∀ b, mutable_Dataptr fuel h x b ≠ .error (.rerror msg) := by
  induction fuel with
  | zero =>
    intro h x msg
    refine ⟨?_, ?_, fun b => ?_⟩ <;> simp [DATAPTR, DATAPTR_RO, mutable_Dataptr]
  | succ f ih =>
    intro h x msg
    refine ⟨?_, ?_, fun wr => ?_⟩
    · unfold DATAPTR
      cases hx : h[x]? with
      | none => simp
      | some o =>
        cases hb : o.body with
        | std d => simp [hb]
        | foreign d => simp [hb]
        | altrep c a b => simpa [hb] using (ih h x msg).2.2 true
    · unfold DATAPTR_RO
      cases hx : h[x]? with
      | none => simp
      | some o =>
        cases hb : o.body with
        | std d => simp [hb]
        | foreign d => simp [hb]
        | altrep c a b => simpa [hb] using (ih h x msg).2.2 false
    · unfold mutable_Dataptr
      cases hd : MUTABLE_DATA h x with
      | error e =>
        have hne : e ≠ .rerror msg := by
          rintro rfl
          exact MUTABLE_DATA_fault h x msg hd
        cases wr <;> simpa using hne
      | ok d =>
        cases wr
        · simpa using (ih h d msg).2.1
        · simpa using (ih h d msg).1

theorem duplicate_fault (fuel : Nat) (h : Heap) (x : SEXP) (msg : String) :
    duplicate fuel h x ≠ .error (.rerror msg) := by
  intro heq
  unfold duplicate at heq
  split at heq
  · rename_i e ht
    cases heq
    exact TYPEOF_fault h x msg ht
  · split at heq
    · rename_i e hl
      cases heq
      exact (XLENGTH_fault fuel h x msg).1 hl
    · split at heq
      · rename_i e hd
        cases heq
        exact (DATAPTR_fault fuel h x msg).1 hd
      · split at heq
        · rename_i e hr
          cases heq
          exact readBlock_fault h _ _ msg hr
        · cases heq

/-! ## Reading and writing the buffer -/

theorem bufferAt_root {h : Heap} {ty : SEXPTYPE} {x r : SEXP} {n : Nat}
    (hc : Chain h ty x r n) : ∃ data, bufferAt h r = some data := by
  obtain ⟨o, data, hr, _, hb⟩ := hc.root_buffer
  exact ⟨data, by simp [bufferAt, hr, hb]⟩

theorem peek_ok {h : Heap} {r : SEXP} {data : List Int}
    (hbuf : bufferAt h r = some data) {i : Int} (h0 : 0 ≤ i)
    (hi : i < (data.length : Int)) :
    ∃ v, data[i.toNat]? = some v ∧ peek h r i = .ok v := by
  have hlt : i.toNat < data.length := by omega
  refine ⟨data[i.toNat], List.getElem?_eq_getElem hlt, ?_⟩
  rw [peek_root hbuf, if_pos h0, List.getElem?_eq_getElem hlt]

theorem peek_poke_self {h h2 : Heap} {p : Ptr} {i : Int} {v : Int}
    (hp : poke h p i v = .ok h2) : peek h2 p i = .ok v := by
  obtain ⟨o, data, ho, hb, h0, hi, _⟩ := poke_eq hp
  have hbuf : bufferAt h p = some data := by simp [bufferAt, ho, hb]
  rw [peek_root (poke_bufferAt_self hp hbuf), if_pos h0,
    List.getElem?_set_self hi]

theorem peek_poke_other {h h2 : Heap} {p : Ptr} {i : Int} {v : Int}
    (hp : poke h p i v = .ok h2) {j : Int} (hj : j ≠ i) :
    peek h2 p j = peek h p j := by
  obtain ⟨o, data, ho, hb, h0, hi, _⟩ := poke_eq hp
  have hbuf : bufferAt h p = some data := by simp [bufferAt, ho, hb]
  rw [peek_root (poke_bufferAt_self hp hbuf), peek_root hbuf]
  by_cases hj0 : 0 ≤ j
  · have hne : i.toNat ≠ j.toNat := by omega
    simp only [if_pos hj0, List.getElem?_set_ne hne]
  · simp only [if_neg hj0]

theorem regionCount_eq_min (size i n : Int) :
    regionCount size i n = min n (size - i) := by
  unfold regionCount
  split <;> omega

theorem pokeAll_frame {p : Ptr} (ws : List (Int × Int)) :
    ∀ (h1 h2 : Heap), pokeAll h1 p ws = .ok h2 →
      ∀ x, x ≠ p → h2[x]? = h1[x]? := by
  induction ws with
  | nil =>
    intro h1 h2 hp x _
    simp only [pokeAll] at hp
    rw [Except.ok.inj hp]
  | cons iv ws ih =>
    intro h1 h2 hp x hx
    obtain ⟨i, v⟩ := iv
    simp only [pokeAll] at hp
    cases hk : poke h1 p i v with
    | error e => simp [hk] at hp
    | ok hm =>
      simp only [hk] at hp
      rw [ih hm h2 hp x hx, poke_lookup_ne hk hx]

theorem Chain.agree {h g : Heap}
    (hag : ∀ (y : SEXP) (o : Obj), h[y]? = some o → g[y]? = some o)
    {ty : SEXPTYPE} {x r : SEXP} {n : Nat} (hc : Chain h ty x r n) :
    Chain g ty x r n := by
  induction hc with
  | buffer x o d hx hty hb => exact .buffer x o d (hag x o hx) hty hb
  | hop x o cls d1 d2 r n hx hty hb hcl _ ih =>
    exact .hop x o cls d1 d2 r n (hag x o hx) hty hb hcl ih

theorem bufferAt_agree {h g : Heap}
    (hag : ∀ (y : SEXP) (o : Obj), h[y]? = some o → g[y]? = some o)
    {r : SEXP} {data : List Int} (hbuf : bufferAt h r = some data) :
    bufferAt g r = some data := by
  unfold bufferAt at hbuf ⊢
  cases hr : h[r]? with
  | none => simp [hr] at hbuf
  | some o =>
    rw [hag r o hr]
    simpa [hr] using hbuf

/-! ## Well-formedness of the heap is an invariant -/

theorem lookup_snoc {h : Heap} {new o : Obj} {x : Nat}
    (hx : (h ++ [new])[x]? = some o) :
    h[x]? = some o ∨ (x = h.length ∧ o = new) := by
  by_cases hlt : x < h.length
  · rw [List.getElem?_append_left hlt] at hx
    exact Or.inl hx
  · have hlen := lookup_lt hx
    rw [List.length_append, List.length_singleton] at hlen
    have hxe : x = h.length := by omega
    subst hxe
    rw [List.getElem?_concat_length] at hx
    exact Or.inr ⟨rfl, (Option.some.inj hx).symm⟩

theorem WellFormed.alloc_std {h : Heap} (hwf : WellFormed h) (t : SEXPTYPE)
    (data : List Int) : WellFormed (h ++ [⟨t, false, .std data⟩]) := by
  intro x o hx hty
  rcases lookup_snoc hx with hold | ⟨rfl, rfl⟩
  · obtain ⟨r, n, hc⟩ := hwf x o hold hty
    exact ⟨r, n, hc.after_alloc _⟩
  · exact ⟨h.length, 0, .buffer _ _ data hx rfl rfl⟩

theorem WellFormed.alloc_wrapper {h : Heap} (hwf : WellFormed h) {d : SEXP}
    {od : Obj} (hd : h[d]? = some od) {cls : R_altrep_class_t}
    (hcls : classOfType od.type = some cls) :
    WellFormed (h ++ [⟨od.type, false, .altrep cls d R_NilValue⟩]) := by
  obtain ⟨hct, hsup⟩ := classOfType_some hcls
  intro x o hx hty
  rcases lookup_snoc hx with hold | ⟨rfl, rfl⟩
  · obtain ⟨r, n, hc⟩ := hwf x o hold hty
    exact ⟨r, n, hc.after_alloc _⟩
  · obtain ⟨r, n, hc⟩ := hwf d od hd hsup
    exact ⟨r, n + 1, .hop _ _ cls d R_NilValue r n hx rfl rfl hct (hc.after_alloc _)⟩

theorem duplicate_shape {fuel : Nat} {h h1 : Heap} {x c : SEXP}
    (hd : duplicate fuel h x = .ok (c, h1)) :
    ∃ o data, h[x]? = some o ∧ c = h.length ∧
      h1 = h ++ [⟨o.type, false, .std data⟩] := by
  unfold duplicate at hd
  cases hx : h[x]? with
  | none => simp [TYPEOF, hx] at hd
  | some o =>
    simp only [TYPEOF, hx] at hd
    split at hd
    · cases hd
    · split at hd
      · cases hd
      · split at hd
        · cases hd
        · rename_i data _
          simp only [Except.ok.injEq, Prod.mk.injEq] at hd
          exact ⟨o, data, rfl, hd.1.symm, hd.2.symm⟩

theorem make_mutable_wellFormed {h : Heap} (hwf : WellFormed h) (fuel : Nat)
    (a : SEXP) : WellFormed (make_mutable fuel h a).2 := by
  unfold make_mutable
  cases ha : h[a]? with
  | none => simpa [TYPEOF, ha] using hwf
  | some o =>
    simp only [TYPEOF, MAYBE_REFERENCED, ha]
    cases hcls : classOfType o.type with
    | none => exact hwf
    | some cls =>
      have hct := (classOfType_some hcls).1
      simp only
      cases hr : o.referenced with
      | false =>
        simp only [R_new_altrep, hct]
        exact hwf.alloc_wrapper ha hcls
      | true =>
        simp only [if_true]
        cases hd : duplicate fuel h a with
        | error e => exact hwf
        | ok res =>
          obtain ⟨c, h1⟩ := res
          obtain ⟨o1, data, ha1, rfl, rfl⟩ := duplicate_shape hd
          have ho : o1 = o := by
            rw [ha] at ha1
            exact (Option.some.inj ha1).symm
          subst ho
          simp only [R_new_altrep, hct]
          have hlc : (h ++ [(⟨o1.type, false, .std data⟩ : Obj)])[h.length]? =
              some ⟨o1.type, false, .std data⟩ := List.getElem?_concat_length _ _
          exact (hwf.alloc_std o1.type data).alloc_wrapper hlc hcls

theorem poke_wellFormed {h h2 : Heap} (hwf : WellFormed h) {p : Ptr} {i v : Int}
    (hp : poke h p i v = .ok h2) : WellFormed h2 := by
  obtain ⟨op, dp, hop, hbp, _, _, hh2⟩ := poke_eq hp
  intro x o hx hty
  by_cases hxp : x = p
  · subst hxp
    rw [hh2, List.getElem?_set_self (lookup_lt hop)] at hx
    have ho := (Option.some.inj hx).symm
    subst ho
    obtain ⟨r, n, hc⟩ := hwf x op hop hty
    exact ⟨r, n, hc.after_poke hp⟩
  · rw [poke_lookup_ne hp hxp] at hx
    obtain ⟨r, n, hc⟩ := hwf x o hx hty
    exact ⟨r, n, hc.after_poke hp⟩

/-! ## Claims -/

/-- C2: `make_mutable` leaves through `error` exactly when the type of its
argument is neither `INTSXP` nor `REALSXP`.  The message then is
"mutable vectors for <name of the type> not supported yet", and the heap after
the call is the heap before it: no copy was made and no wrapper was allocated.
`do_make_mutable` is the same call. -/
theorem make_mutable_error_iff_unsupported (fuel : Nat) (h : Heap) (a : SEXP)
    (o : Obj) (ha : h[a]? = some o) :
    ((∃ msg, (make_mutable fuel h a).1 = .error (.rerror msg)) ↔
      (o.type ≠ INTSXP ∧ o.type ≠ REALSXP)) ∧
    ((o.type ≠ INTSXP ∧ o.type ≠ REALSXP) →
      make_mutable fuel h a =
        (.error (.rerror ("mutable vectors for " ++ type2char o.type
          ++ " not supported yet")), h)) ∧
    do_make_mutable fuel h a = make_mutable fuel h a := by
  have hT : TYPEOF h a = .ok o.type := by simp [TYPEOF, ha]
  have hR : MAYBE_REFERENCED h a = .ok o.referenced := by
    simp [MAYBE_REFERENCED, ha]
  have hbad : (o.type ≠ INTSXP ∧ o.type ≠ REALSXP) →
      make_mutable fuel h a =
        (.error (.rerror ("mutable vectors for " ++ type2char o.type
          ++ " not supported yet")), h) := by
    rintro ⟨h1, h2⟩
    unfold make_mutable
    simp [hT, classOfType, h1, h2]
  refine ⟨⟨?_, fun hu => ⟨_, by rw [hbad hu]⟩⟩, hbad, rfl⟩
  rintro ⟨msg, hmsg⟩
  by_contra hsup
  have hty : o.type = INTSXP ∨ o.type = REALSXP := by
    by_cases h1 : o.type = INTSXP
    · exact Or.inl h1
    · by_cases h2 : o.type = REALSXP
      · exact Or.inr h2
      · exact absurd ⟨h1, h2⟩ hsup
  obtain ⟨cls, hcls, _⟩ := classOfType_supported hty
  unfold make_mutable at hmsg
  simp only [hT, hcls, hR] at hmsg
  cases hr : o.referenced with
  | false => simp [hr, R_new_altrep] at hmsg
  | true =>
    simp only [hr, if_true] at hmsg
    cases hd : duplicate fuel h a with
    | error e =>
      simp only [hd] at hmsg
      exact duplicate_fault fuel h a msg (by rw [hd, Except.error.inj hmsg])
    | ok res =>
      obtain ⟨d, h1⟩ := res
      simp [hd, R_new_altrep] at hmsg

theorem make_mutable_error_iff_unsupported_witness :
    exampleHeap[4]? = some { type := STRSXP, referenced := true, body := .std [0] } ∧
    make_mutable 3 exampleHeap 4 =
      (.error (.rerror "mutable vectors for character not supported yet"),
       exampleHeap) :=
  ⟨rfl, (make_mutable_error_iff_unsupported 3 exampleHeap 4 _ rfl).2.1
    ⟨by decide, by decide⟩⟩

/-- C3: for every vector `a` of type `INTSXP` or `REALSXP`, shared or not,
`make_mutable` returns a wrapper `w` on which `do_is_mutable` answers true: `w`
has the type of `a` and is an ALTREP object of the class that the `switch` of
`make_mutable` selects for that type, `mutable_integer_class` for `INTSXP` and
`mutable_real_class` for `REALSXP`.  That class is exactly the class
`do_is_mutable` tests for that type: on every object `x` of the type of `a`,
`do_is_mutable(x)` is `R_altrep_inherits(x, cls)`. -/
theorem is_mutable_make_mutable (fuel : Nat) (h : Heap) (ty : SEXPTYPE)
    (a r : SEXP) (n : Nat) (hty : ty = INTSXP ∨ ty = REALSXP)
    (hc : Chain h ty a r n) (hf : 2 * n + 1 ≤ fuel) :
    ∃ w h1 cls, make_mutable fuel h a = (.ok w, h1) ∧
      do_is_mutable h1 w = .ok true ∧
      TYPEOF h a = .ok ty ∧ TYPEOF h1 w = .ok ty ∧
      R_altrep_inherits h1 w cls = .ok true ∧
      (ty = INTSXP → cls = mutable_integer_class) ∧
      (ty = REALSXP → cls = mutable_real_class) ∧
      (∀ x : SEXP, TYPEOF h1 x = .ok ty →
        do_is_mutable h1 x = R_altrep_inherits h1 x cls) := by
  obtain ⟨o, data, hr, _, hb⟩ := hc.root_buffer
  have hbuf : bufferAt h r = some data := by simp [bufferAt, hr, hb]
  obtain ⟨w, h1, cls, r1, n1, ext, hmk, hcls, _, hw, _, _⟩ :=
    make_mutable_wrapper hty hc hbuf fuel hf
  have hct := (classOfType_some hcls).1
  have hint : ty = INTSXP → cls = mutable_integer_class := by
    rintro rfl
    cases cls
    · rfl
    · simp [classType, INTSXP, REALSXP] at hct
  have hreal : ty = REALSXP → cls = mutable_real_class := by
    rintro rfl
    cases cls
    · simp [classType, INTSXP, REALSXP] at hct
    · rfl
  refine ⟨w, h1, cls, hmk, do_is_mutable_wrapper hw, TYPEOF_chain hc, ?_, ?_,
    hint, hreal, ?_⟩
  · rw [← hct]
    exact TYPEOF_chain hw.chain
  · obtain ⟨ow, d1, d2, hx, _, hbody, _⟩ := hw
    simp [R_altrep_inherits, hx, hbody]
  · intro x hx
    unfold do_is_mutable
    simp only [hx]
    rcases hty with rfl | rfl
    · rw [if_pos rfl, hint rfl]
    · have hne : REALSXP ≠ INTSXP := by decide
      rw [if_neg hne, if_pos rfl, hreal rfl]

theorem is_mutable_make_mutable_witness :
    Chain exampleHeap INTSXP 2 2 0 ∧
    ∃ w h1 cls, make_mutable 1 exampleHeap 2 = (.ok w, h1) ∧
      do_is_mutable h1 w = .ok true ∧
      TYPEOF exampleHeap 2 = .ok INTSXP ∧ TYPEOF h1 w = .ok INTSXP ∧
      R_altrep_inherits h1 w cls = .ok true ∧
      (INTSXP = INTSXP → cls = mutable_integer_class) ∧
      (INTSXP = REALSXP → cls = mutable_real_class) ∧
      (∀ x : SEXP, TYPEOF h1 x = .ok INTSXP →
        do_is_mutable h1 x = R_altrep_inherits h1 x cls) :=
  ⟨.buffer 2 _ [10, 20, 30] rfl rfl rfl,
   is_mutable_make_mutable 1 exampleHeap INTSXP 2 2 0 (Or.inl rfl)
     (.buffer 2 _ [10, 20, 30] rfl rfl rfl) (by decide)⟩

/-- C4: `do_is_mutable` returns a truth value for every object and never raises
an R error.  The value is true exactly when the object has type `INTSXP` and is
an ALTREP object of `mutable_integer_class`, or has type `REALSXP` and is an
ALTREP object of `mutable_real_class`; it is false for every standard vector
and for every object of another type. -/
theorem do_is_mutable_iff (h : Heap) (x : SEXP) (o : Obj) (hx : h[x]? = some o) :
    ∃ b, do_is_mutable h x = .ok b ∧
      (b = true ↔
        ((o.type = INTSXP ∧ ∃ d1 d2, o.body = .altrep mutable_integer_class d1 d2) ∨
         (o.type = REALSXP ∧ ∃ d1 d2, o.body = .altrep mutable_real_class d1 d2))) ∧
      ((∃ data, o.body = .std data) → b = false) ∧
      (o.type ≠ INTSXP → o.type ≠ REALSXP → b = false) := by
  have hne : INTSXP ≠ REALSXP := by decide
  unfold do_is_mutable
  simp only [TYPEOF, hx, R_altrep_inherits]
  by_cases h1 : o.type = INTSXP
  · have h2 : o.type ≠ REALSXP := by rw [h1]; exact hne
    simp only [h1, if_true]
    cases hb : o.body with
    | std d => exact ⟨false, rfl, by simp [hne], fun _ => rfl, fun hh => absurd rfl hh⟩
    | foreign d => exact ⟨false, rfl, by simp [hne], fun _ => rfl, fun hh => absurd rfl hh⟩
    | altrep c d1 d2 =>
      cases c
      · exact ⟨true, by simp, by simp, by simp, fun hh => absurd rfl hh⟩
      · exact ⟨false, by simp, by simp [hne], by simp, fun hh => absurd rfl hh⟩
  · simp only [if_neg h1]
    by_cases h2 : o.type = REALSXP
    · simp only [h2, if_true]
      cases hb : o.body with
      | std d =>
        exact ⟨false, rfl, by simp [hne.symm], fun _ => rfl, fun _ hh => absurd rfl hh⟩
      | foreign d =>
        exact ⟨false, rfl, by simp [hne.symm], fun _ => rfl, fun _ hh => absurd rfl hh⟩
      | altrep c d1 d2 =>
        cases c
        · exact ⟨false, by simp, by simp [hne.symm], by simp, fun _ hh => absurd rfl hh⟩
        · exact ⟨true, by simp, by simp, by simp, fun _ hh => absurd rfl hh⟩
    · simp only [if_neg h2]
      exact ⟨false, rfl, by simp [h1, h2], fun _ => rfl, fun _ _ => rfl⟩

theorem do_is_mutable_iff_witness :
    exampleHeap[6]? =
      some ⟨INTSXP, true, .altrep mutable_integer_class 1 R_NilValue⟩ ∧
    do_is_mutable exampleHeap 6 = .ok true := by
  refine ⟨rfl, ?_⟩
  obtain ⟨b, hb, hiff, _, _⟩ := do_is_mutable_iff exampleHeap 6 _ rfl
  rw [hb, hiff.mpr (Or.inl ⟨rfl, 1, R_NilValue, rfl⟩)]

/-- C6: for every vector `a` of type `INTSXP` or `REALSXP`, copied or adopted,
`mutable_Length` of the wrapper returned by `make_mutable` is `XLENGTH(a)`.  The
wrapper holds no length: `mutable_Length` is `XLENGTH` of whatever `data1`
currently is, in every heap. -/
theorem make_mutable_preserves_length (fuel : Nat) (h : Heap) (ty : SEXPTYPE)
    (a r : SEXP) (n : Nat) (hty : ty = INTSXP ∨ ty = REALSXP)
    (hc : Chain h ty a r n) (hf : 2 * n + 2 ≤ fuel) :
    (∃ w h1 len, make_mutable fuel h a = (.ok w, h1) ∧
      XLENGTH fuel h a = .ok len ∧ mutable_Length fuel h1 w = .ok len) ∧
    (∀ (g : Heap) (x d : SEXP) (f : Nat), MUTABLE_DATA g x = .ok d →
      mutable_Length (f + 1) g x = XLENGTH f g d) := by
  constructor
  · obtain ⟨o, data, hr, _, hb⟩ := hc.root_buffer
    have hbuf : bufferAt h r = some data := by simp [bufferAt, hr, hb]
    obtain ⟨w, h1, cls, r1, n1, ext, hmk, _, _, hw, hn, hbuf1⟩ :=
      make_mutable_wrapper hty hc hbuf fuel (by omega)
    exact ⟨w, h1, data.length, hmk, XLENGTH_chain hc hbuf fuel (by omega),
      mutable_Length_wrapper hw hbuf1 fuel (by omega)⟩
  · intro g x d f hd
    rw [mutable_Length]
    simp only [hd]

theorem make_mutable_preserves_length_witness :
    Chain exampleHeap INTSXP 6 1 1 ∧
    ((∃ w h1 len, make_mutable 4 exampleHeap 6 = (.ok w, h1) ∧
      XLENGTH 4 exampleHeap 6 = .ok len ∧ mutable_Length 4 h1 w = .ok len) ∧
    (∀ (g : Heap) (x d : SEXP) (f : Nat), MUTABLE_DATA g x = .ok d →
      mutable_Length (f + 1) g x = XLENGTH f g d)) :=
  ⟨.hop 6 _ mutable_integer_class 1 R_NilValue 1 0 rfl rfl rfl rfl
      (.buffer 1 _ [1, 2, 3, 4] rfl rfl rfl),
   make_mutable_preserves_length 4 exampleHeap INTSXP 6 1 1 (Or.inl rfl)
    (.hop 6 _ mutable_integer_class 1 R_NilValue 1 0 rfl rfl rfl rfl
      (.buffer 1 _ [1, 2, 3, 4] rfl rfl rfl)) (by decide)⟩

/-- C5: for every vector `a` of type `INTSXP` or `REALSXP` and every index `i`
with `0 <= i < XLENGTH(a)`, the element accessor of the wrapper returned by
`make_mutable` yields, right after construction, the element the host reads from
`a`: `mutable_integer_Elt` agrees with `INTEGER_ELT` and `mutable_real_Elt` with
`REAL_ELT`.  Nothing is assumed about `MAYBE_REFERENCED(a)`, so the copy branch
and the adopt branch are both covered. -/
theorem make_mutable_preserves_elements (fuel : Nat) (h : Heap) (ty : SEXPTYPE)
    (a r : SEXP) (n : Nat) (hty : ty = INTSXP ∨ ty = REALSXP)
    (hc : Chain h ty a r n) (hf : 2 * n + 2 ≤ fuel) :
    ∃ w h1 len, make_mutable fuel h a = (.ok w, h1) ∧
      XLENGTH fuel h a = .ok len ∧
      ∀ i : Int, 0 ≤ i → i < len →
        ∃ v,
          (ty = INTSXP → INTEGER_ELT fuel h a i = .ok v ∧
            mutable_integer_Elt fuel h1 w i = .ok v) ∧
          (ty = REALSXP → REAL_ELT fuel h a i = .ok v ∧
            mutable_real_Elt fuel h1 w i = .ok v) := by
  obtain ⟨data, hbuf⟩ := bufferAt_root hc
  obtain ⟨w, h1, cls, r1, n1, ext, hmk, hcls, _, hw, hn, hbuf1⟩ :=
    make_mutable_wrapper hty hc hbuf fuel (by omega)
  refine ⟨w, h1, data.length, hmk, XLENGTH_chain hc hbuf fuel (by omega), ?_⟩
  intro i h0 hi
  obtain ⟨v, hv, hpk⟩ := peek_ok hbuf h0 hi
  obtain ⟨v1, hv1, hpk1⟩ := peek_ok hbuf1 h0 hi
  have hvv : v1 = v := by
    rw [hv] at hv1
    exact (Option.some.inj hv1).symm
  subst hvv
  have hE := Elt_method_wrapper hw fuel (by omega) i
  refine ⟨v1, ?_, ?_⟩
  · rintro rfl
    have hcl : cls = mutable_integer_class := by
      simpa [classOfType] using hcls.symm
    subst hcl
    exact ⟨by rw [INTEGER_ELT_chain hc fuel (by omega), hpk],
      by rw [← hpk1, ← hE]; rfl⟩
  · rintro rfl
    have hcl : cls = mutable_real_class := by
      simpa [classOfType, INTSXP, REALSXP] using hcls.symm
    subst hcl
    exact ⟨by rw [REAL_ELT_chain hc fuel (by omega), hpk],
      by rw [← hpk1, ← hE]; rfl⟩

theorem make_mutable_preserves_elements_witness :
    Chain exampleHeap REALSXP 3 3 0 ∧
    ∃ w h1 len, make_mutable 2 exampleHeap 3 = (.ok w, h1) ∧
      XLENGTH 2 exampleHeap 3 = .ok len ∧
      ∀ i : Int, 0 ≤ i → i < len →
        ∃ v,
          (REALSXP = INTSXP → INTEGER_ELT 2 exampleHeap 3 i = .ok v ∧
            mutable_integer_Elt 2 h1 w i = .ok v) ∧
          (REALSXP = REALSXP → REAL_ELT 2 exampleHeap 3 i = .ok v ∧
            mutable_real_Elt 2 h1 w i = .ok v) :=
  ⟨.buffer 3 _ [7, 8] rfl rfl rfl,
   make_mutable_preserves_elements 2 exampleHeap REALSXP 3 3 0 (Or.inr rfl)
     (.buffer 3 _ [7, 8] rfl rfl rfl) (by decide)⟩

/-- C7: for every wrapper `w`, every index `i` with `0 <= i < length(w)` and
every value `v`: `mutable_Dataptr(w, TRUE)` and `mutable_Dataptr(w, FALSE)` are
the same pointer `p`; after the write `p[i] = v` the wrapper's `Elt` method
returns `v` at `i`, returns what it returned before at every other index,
`mutable_Length` is unchanged, and the wrapper's `Get_region` method reads `v`
at `i`. -/
theorem write_through_pointer_visible (fuel : Nat) (h : Heap)
    (cls : R_altrep_class_t) (w r : SEXP) (n : Nat) (len i v : Int)
    (hw : Wrapper h cls w r n) (hlen : mutable_Length fuel h w = .ok len)
    (h0 : 0 ≤ i) (hi : i < len) (hf : 2 * n + 2 ≤ fuel) :
    ∃ p h2, mutable_Dataptr fuel h w true = .ok p ∧
      mutable_Dataptr fuel h w false = .ok p ∧
      poke h p i v = .ok h2 ∧
      Elt_method cls fuel h2 w i = .ok v ∧
      (∀ j : Int, j ≠ i → Elt_method cls fuel h2 w j = Elt_method cls fuel h w j) ∧
      mutable_Length fuel h2 w = .ok len ∧
      Get_region_method cls fuel h2 w i 1 [0] = .ok (1, [v]) := by
  obtain ⟨data, hbuf⟩ := bufferAt_root hw.chain
  have hl := mutable_Length_wrapper hw hbuf fuel hf
  rw [hlen] at hl
  have hlen_eq : len = (data.length : Int) := Except.ok.inj hl
  subst hlen_eq
  obtain ⟨h2, hp⟩ := poke_ok hbuf h0 hi v
  have hw2 : Wrapper h2 cls w r n := hw.wrapper_after_poke hp
  refine ⟨r, h2, mutable_Dataptr_wrapper hw fuel hf true,
    mutable_Dataptr_wrapper hw fuel hf false, hp, ?_, ?_, ?_, ?_⟩
  · rw [Elt_method_wrapper hw2 fuel (by omega)]
    exact peek_poke_self hp
  · intro j hj
    rw [Elt_method_wrapper hw2 fuel (by omega), Elt_method_wrapper hw fuel (by omega)]
    exact peek_poke_other hp hj
  · have := mutable_Length_wrapper hw2 (poke_bufferAt_self hp hbuf) fuel hf
    rw [this, List.length_set]
  · have hcnt : regionCount ((data.set i.toNat v).length : Int) i 1 = 1 := by
      rw [regionCount_eq_min, List.length_set]
      omega
    have hpk : peek h2 r i = .ok v := peek_poke_self hp
    rw [Get_region_method_wrapper hw2 (poke_bufferAt_self hp hbuf) fuel hf, hcnt]
    simp [copyLoop, store, hpk]

theorem write_through_pointer_visible_witness :
    Wrapper exampleHeap mutable_integer_class 6 1 0 ∧
    mutable_Length 2 exampleHeap 6 = .ok 4 ∧
    ∃ p h2, mutable_Dataptr 2 exampleHeap 6 true = .ok p ∧
      mutable_Dataptr 2 exampleHeap 6 false = .ok p ∧
      poke exampleHeap p 2 99 = .ok h2 ∧
      Elt_method mutable_integer_class 2 h2 6 2 = .ok 99 ∧
      (∀ j : Int, j ≠ 2 → Elt_method mutable_integer_class 2 h2 6 j =
        Elt_method mutable_integer_class 2 exampleHeap 6 j) ∧
      mutable_Length 2 h2 6 = .ok 4 ∧
      Get_region_method mutable_integer_class 2 h2 6 2 1 [0] = .ok (1, [99]) :=
  ⟨⟨_, 1, R_NilValue, rfl, rfl, rfl, .buffer 1 _ [1, 2, 3, 4] rfl rfl rfl⟩, rfl,
   write_through_pointer_visible 2 exampleHeap mutable_integer_class 6 1 0 4 2 99
     ⟨_, 1, R_NilValue, rfl, rfl, rfl, .buffer 1 _ [1, 2, 3, 4] rfl rfl rfl⟩ rfl
     (by decide) (by decide) (by decide)⟩

/-- C8: for every wrapper `w`, every `start` with `0 <= start <= length(w)`,
every `count` (so every `count >= 0`) and every output buffer with room for the
result, the
wrapper's `Get_region` method returns `m = min(count, length(w) - start)`, leaves
in `buf[k]` for every `k < m` the element that the `Elt` method returns at
`start + k`, and leaves every position `k >= m` of the buffer as it was.  When
`start + count <= length(w)`, `m = count`. -/
theorem region_read_spec (fuel : Nat) (h : Heap) (cls : R_altrep_class_t)
    (w r : SEXP) (n : Nat) (len start count : Int) (buf : List Int)
    (hw : Wrapper h cls w r n) (hlen : mutable_Length fuel h w = .ok len)
    (hs0 : 0 ≤ start) (hs1 : start ≤ len)
    (hroom : min count (len - start) ≤ (buf.length : Int))
    (hf : 2 * n + 2 ≤ fuel) :
    ∃ buf1,
      Get_region_method cls fuel h w start count buf =
        .ok (min count (len - start), buf1) ∧
      buf1.length = buf.length ∧
      (∀ k : Nat, (k : Int) < min count (len - start) →
        ∃ v, buf1[k]? = some v ∧ Elt_method cls fuel h w (start + k) = .ok v) ∧
      (∀ k : Nat, min count (len - start) ≤ (k : Int) → buf1[k]? = buf[k]?) ∧
      (start + count ≤ len → min count (len - start) = count) := by
  obtain ⟨data, hbuf⟩ := bufferAt_root hw.chain
  have hl := mutable_Length_wrapper hw hbuf fuel hf
  rw [hlen] at hl
  have hlen_eq : len = (data.length : Int) := Except.ok.inj hl
  subst hlen_eq
  have hG := Get_region_method_wrapper hw hbuf fuel hf start count buf
  rw [regionCount_eq_min] at hG
  obtain ⟨buf1, hloop, hlen1, hget⟩ :=
    copyLoop_peek hbuf hs0 (min count ((data.length : Int) - start)).toNat 0 buf
      (by omega) (by omega)
  rw [hloop] at hG
  refine ⟨buf1, hG, hlen1, ?_, ?_, fun _ => by omega⟩
  · intro k hk
    have hk0 : (0 : Int) ≤ start + k := by omega
    have hk1 : start + (k : Int) < (data.length : Int) := by omega
    obtain ⟨v, hv, hpk⟩ := peek_ok hbuf hk0 hk1
    refine ⟨v, ?_, ?_⟩
    · rw [hget k, if_pos (by omega)]
      have : start.toNat + k = (start + (k : Int)).toNat := by omega
      rw [this]
      exact hv
    · rw [Elt_method_wrapper hw fuel (by omega)]
      exact hpk
  · intro k hk
    rw [hget k, if_neg (by omega)]

theorem region_read_spec_witness :
    Wrapper exampleHeap mutable_integer_class 6 1 0 ∧
    ∃ buf1,
      Get_region_method mutable_integer_class 2 exampleHeap 6 1 5 [0, 0, 0, 0, 0] =
        .ok (min 5 (4 - 1), buf1) ∧
      buf1.length = [(0 : Int), 0, 0, 0, 0].length ∧
      (∀ k : Nat, (k : Int) < min 5 (4 - 1) →
        ∃ v, buf1[k]? = some v ∧
          Elt_method mutable_integer_class 2 exampleHeap 6 (1 + k) = .ok v) ∧
      (∀ k : Nat, min 5 (4 - 1) ≤ (k : Int) → buf1[k]? = [(0 : Int), 0, 0, 0, 0][k]?) ∧
      ((1 : Int) + 5 ≤ 4 → min (5 : Int) (4 - 1) = 5) :=
  ⟨⟨_, 1, R_NilValue, rfl, rfl, rfl, .buffer 1 _ [1, 2, 3, 4] rfl rfl rfl⟩,
   region_read_spec 2 exampleHeap mutable_integer_class 6 1 0 4 1 5 [0, 0, 0, 0, 0]
     ⟨_, 1, R_NilValue, rfl, rfl, rfl, .buffer 1 _ [1, 2, 3, 4] rfl rfl rfl⟩ rfl
     (by decide) (by decide) (by decide) (by decide)⟩

/-- C1: for every vector `a` of type `INTSXP` or `REALSXP` for which
`MAYBE_REFERENCED` is true, `make_mutable` builds the wrapper around a copy: the
wrapper's `data1` is an object `c` that did not exist before the call, a
standard vector of the type and contents of `a`, and the wrapper's writable
pointer points into `c`.  After any sequence of writes through that pointer
every object that existed before the call is as it was, `XLENGTH(a)` is
unchanged and every element of `a` reads as before the call. -/
theorem make_mutable_shared_copies (fuel : Nat) (h : Heap) (ty : SEXPTYPE)
    (a r : SEXP) (n : Nat) (hty : ty = INTSXP ∨ ty = REALSXP)
    (hc : Chain h ty a r n) (hs : MAYBE_REFERENCED h a = .ok true)
    (hf : 2 * n + 2 ≤ fuel) :
    ∃ w h1 c data,
      make_mutable fuel h a = (.ok w, h1) ∧
      MUTABLE_DATA h1 w = .ok c ∧
      h[c]? = none ∧
      h1[c]? = some { type := ty, referenced := false, body := .std data } ∧
      bufferAt h r = some data ∧
      mutable_Dataptr fuel h1 w true = .ok c ∧
      ∀ (ws : List (Int × Int)) (h2 : Heap), pokeAll h1 c ws = .ok h2 →
        (∀ (x : SEXP) (o : Obj), h[x]? = some o → h2[x]? = some o) ∧
        XLENGTH fuel h a = .ok (data.length : Int) ∧
        XLENGTH fuel h2 a = .ok (data.length : Int) ∧
        ∀ j : Int, 0 ≤ j → j < (data.length : Int) →
          ∃ v,
            (ty = INTSXP → INTEGER_ELT fuel h a j = .ok v ∧
              INTEGER_ELT fuel h2 a j = .ok v) ∧
            (ty = REALSXP → REAL_ELT fuel h a j = .ok v ∧
              REAL_ELT fuel h2 a j = .ok v) := by
  obtain ⟨data, hbuf⟩ := bufferAt_root hc
  obtain ⟨cls, hcls, hct⟩ := classOfType_supported hty
  obtain ⟨ow, hmk, hlc, hwr, hd, _⟩ :=
    make_mutable_copy_wrapper hc hcls hs hbuf fuel (by omega)
  refine ⟨_, _, h.length, data, hmk, hd, List.getElem?_eq_none (le_refl _), hlc,
    hbuf, mutable_Dataptr_wrapper hwr fuel (by omega) true, ?_⟩
  intro ws h2 hp
  have hag : ∀ (x : SEXP) (o : Obj), h[x]? = some o → h2[x]? = some o := by
    intro x o hx
    have hne : x ≠ h.length := Nat.ne_of_lt (lookup_lt hx)
    rw [pokeAll_frame ws _ h2 hp x hne]
    exact lookup_append hx _
  have hc2 : Chain h2 ty a r n := hc.agree hag
  have hbuf2 : bufferAt h2 r = some data := bufferAt_agree hag hbuf
  refine ⟨hag, XLENGTH_chain hc hbuf fuel (by omega),
    XLENGTH_chain hc2 hbuf2 fuel (by omega), ?_⟩
  intro j hj0 hj1
  obtain ⟨v, _, hpk⟩ := peek_ok hbuf hj0 hj1
  have hpk2 : peek h2 r j = .ok v := by
    rw [peek_congr (hbuf2.trans hbuf.symm), hpk]
  refine ⟨v, ?_, ?_⟩
  · rintro rfl
    exact ⟨by rw [INTEGER_ELT_chain hc fuel (by omega), hpk],
      by rw [INTEGER_ELT_chain hc2 fuel (by omega), hpk2]⟩
  · rintro rfl
    exact ⟨by rw [REAL_ELT_chain hc fuel (by omega), hpk],
      by rw [REAL_ELT_chain hc2 fuel (by omega), hpk2]⟩

theorem make_mutable_shared_copies_witness :
    Chain exampleHeap INTSXP 2 2 0 ∧ MAYBE_REFERENCED exampleHeap 2 = .ok true ∧
    ∃ w h1 c data,
      make_mutable 2 exampleHeap 2 = (.ok w, h1) ∧
      MUTABLE_DATA h1 w = .ok c ∧
      exampleHeap[c]? = none ∧
      h1[c]? = some { type := INTSXP, referenced := false, body := .std data } ∧
      bufferAt exampleHeap 2 = some data ∧
      mutable_Dataptr 2 h1 w true = .ok c ∧
      ∀ (ws : List (Int × Int)) (h2 : Heap), pokeAll h1 c ws = .ok h2 →
        (∀ (x : SEXP) (o : Obj), exampleHeap[x]? = some o → h2[x]? = some o) ∧
        XLENGTH 2 exampleHeap 2 = .ok (data.length : Int) ∧
        XLENGTH 2 h2 2 = .ok (data.length : Int) ∧
        ∀ j : Int, 0 ≤ j → j < (data.length : Int) →
          ∃ v,
            (INTSXP = INTSXP → INTEGER_ELT 2 exampleHeap 2 j = .ok v ∧
              INTEGER_ELT 2 h2 2 j = .ok v) ∧
            (INTSXP = REALSXP → REAL_ELT 2 exampleHeap 2 j = .ok v ∧
              REAL_ELT 2 h2 2 j = .ok v) :=
  ⟨.buffer 2 _ [10, 20, 30] rfl rfl rfl, rfl,
   make_mutable_shared_copies 2 exampleHeap INTSXP 2 2 0 (Or.inl rfl)
     (.buffer 2 _ [10, 20, 30] rfl rfl rfl) rfl (by decide)⟩

/-- C9: for every vector `a` of type `INTSXP` or `REALSXP` for which
`MAYBE_REFERENCED` is false, `make_mutable` makes no copy: the only object it
allocates is the wrapper, whose `data1` is the handle `a` itself, and the
wrapper's writable pointer is the data pointer of `a`.  A write of `v` at an
index `i` of `a` through that pointer makes element `i` of `a` read `v`. -/
theorem make_mutable_unshared_adopts (fuel : Nat) (h : Heap) (ty : SEXPTYPE)
    (a r : SEXP) (n : Nat) (hty : ty = INTSXP ∨ ty = REALSXP)
    (hc : Chain h ty a r n) (hs : MAYBE_REFERENCED h a = .ok false)
    (hf : 2 * n + 2 ≤ fuel) :
    ∃ w h1 p len,
      make_mutable fuel h a = (.ok w, h1) ∧
      (∃ o, h1 = h ++ [o]) ∧ w = h.length ∧
      MUTABLE_DATA h1 w = .ok a ∧
      mutable_Dataptr fuel h1 w true = .ok p ∧
      DATAPTR fuel h a = .ok p ∧
      XLENGTH fuel h a = .ok len ∧
      ∀ i v : Int, 0 ≤ i → i < len →
        ∃ h2, poke h1 p i v = .ok h2 ∧
          (ty = INTSXP → INTEGER_ELT fuel h2 a i = .ok v) ∧
          (ty = REALSXP → REAL_ELT fuel h2 a i = .ok v) := by
  obtain ⟨data, hbuf⟩ := bufferAt_root hc
  obtain ⟨cls, hcls, hct⟩ := classOfType_supported hty
  obtain ⟨ow, hmk, hwr, hd⟩ := make_mutable_adopt_wrapper hc hcls hs fuel
  have hc1 := hc.after_alloc [ow]
  have hbuf1 := bufferAt_append hbuf [ow]
  refine ⟨_, _, r, data.length, hmk, ⟨_, rfl⟩, rfl, hd,
    mutable_Dataptr_wrapper hwr fuel hf true, DATAPTR_chain hc fuel (by omega),
    XLENGTH_chain hc hbuf fuel (by omega), ?_⟩
  intro i v h0 hi
  obtain ⟨h2, hp⟩ := poke_ok hbuf1 h0 hi v
  have hc2 := hc1.after_poke hp
  refine ⟨h2, hp, ?_, ?_⟩
  · rintro rfl
    rw [INTEGER_ELT_chain hc2 fuel (by omega)]
    exact peek_poke_self hp
  · rintro rfl
    rw [REAL_ELT_chain hc2 fuel (by omega)]
    exact peek_poke_self hp

theorem make_mutable_unshared_adopts_witness :
    Chain exampleHeap REALSXP 7 7 0 ∧ MAYBE_REFERENCED exampleHeap 7 = .ok false ∧
    ∃ w h1 p len,
      make_mutable 2 exampleHeap 7 = (.ok w, h1) ∧
      (∃ o, h1 = exampleHeap ++ [o]) ∧ w = exampleHeap.length ∧
      MUTABLE_DATA h1 w = .ok 7 ∧
      mutable_Dataptr 2 h1 w true = .ok p ∧
      DATAPTR 2 exampleHeap 7 = .ok p ∧
      XLENGTH 2 exampleHeap 7 = .ok len ∧
      ∀ i v : Int, 0 ≤ i → i < len →
        ∃ h2, poke h1 p i v = .ok h2 ∧
          (REALSXP = INTSXP → INTEGER_ELT 2 h2 7 i = .ok v) ∧
          (REALSXP = REALSXP → REAL_ELT 2 h2 7 i = .ok v) :=
  ⟨.buffer 7 _ [15, 25] rfl rfl rfl, rfl,
   make_mutable_unshared_adopts 2 exampleHeap REALSXP 7 7 0 (Or.inr rfl)
     (.buffer 7 _ [15, 25] rfl rfl rfl) rfl (by decide)⟩

/-- C10, as stated, fails: object 5 of `exampleHeap` is an unshared `INTSXP`
vector of a foreign ALTREP class, whose `Dataptr_or_null` answers `NULL`.
`make_mutable` adopts it as it is, and `mutable_Dataptr_or_null` of the wrapper
returns `NULL`, while `mutable_Dataptr(w, FALSE)` returns the pointer to the
buffer of object 5. -/
theorem pointer_or_null_null_counterexample :
    TYPEOF exampleHeap 5 = .ok INTSXP ∧
    MAYBE_REFERENCED exampleHeap 5 = .ok false ∧
    (make_mutable 2 exampleHeap 5).1 = .ok 8 ∧
    MUTABLE_DATA (make_mutable 2 exampleHeap 5).2 8 = .ok 5 ∧
    mutable_Dataptr_or_null 2 (make_mutable 2 exampleHeap 5).2 8 = .ok none ∧
    mutable_Dataptr_or_null 9 (make_mutable 2 exampleHeap 5).2 8 = .ok none ∧
    mutable_Dataptr 2 (make_mutable 2 exampleHeap 5).2 8 false = .ok 5 :=
  ⟨rfl, rfl, rfl, rfl, rfl, rfl, rfl⟩

/-- C10, amended: for every wrapper `w` that `make_mutable` returns for a vector
`a` of type `INTSXP` or `REALSXP`, `mutable_Dataptr_or_null(w)` is
`DATAPTR_OR_NULL` of the wrapper's `data1`.  When `a` was shared (so `data1` is
the fresh standard copy) or the buffer of `a` is that of a standard vector, the
result is non-null and is the pointer that `mutable_Dataptr(w, FALSE)` returns.
When `a` was not shared and its buffer is not that of a standard vector, the
result is `NULL`. -/
theorem pointer_or_null_forwards (fuel : Nat) (h : Heap) (ty : SEXPTYPE)
    (a r : SEXP) (n : Nat) (hty : ty = INTSXP ∨ ty = REALSXP)
    (hc : Chain h ty a r n) (hf : 2 * n + 2 ≤ fuel) :
    ∃ w h1 d p,
      make_mutable fuel h a = (.ok w, h1) ∧
      MUTABLE_DATA h1 w = .ok d ∧
      (∀ f, mutable_Dataptr_or_null (f + 1) h1 w = DATAPTR_OR_NULL f h1 d) ∧
      mutable_Dataptr fuel h1 w false = .ok p ∧
      (MAYBE_REFERENCED h a = .ok true ∨ isStd h r = true →
        mutable_Dataptr_or_null fuel h1 w = .ok (some p)) ∧
      (MAYBE_REFERENCED h a = .ok false ∧ isStd h r = false →
        mutable_Dataptr_or_null fuel h1 w = .ok none) := by
  obtain ⟨data, hbuf⟩ := bufferAt_root hc
  obtain ⟨cls, hcls, hct⟩ := classOfType_supported hty
  obtain ⟨or_, _, hr, _, _⟩ := hc.root_buffer
  obtain ⟨b, hb⟩ := MAYBE_REFERENCED_chain hc
  have hfwd : ∀ (g : Heap) (x d : SEXP) (f : Nat), MUTABLE_DATA g x = .ok d →
      mutable_Dataptr_or_null (f + 1) g x = DATAPTR_OR_NULL f g d := by
    intro g x d f hd
    rw [mutable_Dataptr_or_null]
    simp only [hd]
  cases b with
  | false =>
    obtain ⟨ow, hmk, hwr, hd⟩ := make_mutable_adopt_wrapper hc hcls hb fuel
    have hnull := mutable_Dataptr_or_null_wrapper hwr fuel hf
    rw [isStd_append hr] at hnull
    refine ⟨_, _, a, r, hmk, hd, fun f => hfwd _ _ _ f hd,
      mutable_Dataptr_wrapper hwr fuel hf false, ?_, ?_⟩
    · rintro (hsh | hstd)
      · rw [hb] at hsh
        cases hsh
      · rw [hnull, hstd]
        rfl
    · rintro ⟨_, hstd⟩
      rw [hnull, hstd]
      rfl
  | true =>
    obtain ⟨ow, hmk, hlc, hwr, hd, _⟩ :=
      make_mutable_copy_wrapper hc hcls hb hbuf fuel (by omega)
    have hnull := mutable_Dataptr_or_null_wrapper hwr fuel (by omega)
    have hstd1 : isStd (h ++ [⟨ty, false, .std data⟩, ow]) h.length = true := by
      simp [isStd, hlc]
    rw [hstd1] at hnull
    refine ⟨_, _, h.length, h.length, hmk, hd, fun f => hfwd _ _ _ f hd,
      mutable_Dataptr_wrapper hwr fuel (by omega) false, fun _ => hnull, ?_⟩
    rintro ⟨hsh, _⟩
    rw [hb] at hsh
    cases hsh

theorem pointer_or_null_forwards_witness :
    Chain exampleHeap REALSXP 3 3 0 ∧
    ∃ w h1 d p,
      make_mutable 2 exampleHeap 3 = (.ok w, h1) ∧
      MUTABLE_DATA h1 w = .ok d ∧
      (∀ f, mutable_Dataptr_or_null (f + 1) h1 w = DATAPTR_OR_NULL f h1 d) ∧
      mutable_Dataptr 2 h1 w false = .ok p ∧
      (MAYBE_REFERENCED exampleHeap 3 = .ok true ∨ isStd exampleHeap 3 = true →
        mutable_Dataptr_or_null 2 h1 w = .ok (some p)) ∧
      (MAYBE_REFERENCED exampleHeap 3 = .ok false ∧ isStd exampleHeap 3 = false →
        mutable_Dataptr_or_null 2 h1 w = .ok none) :=
  ⟨.buffer 3 _ [7, 8] rfl rfl rfl,
   pointer_or_null_forwards 2 exampleHeap REALSXP 3 3 0 (Or.inr rfl)
     (.buffer 3 _ [7, 8] rfl rfl rfl) (by decide)⟩

end Mutable
